import Mathlib

/-!
Server side of the MySQL connection phase (`database/mysql/server.go`)

A shallow embedding of `Handshake`, `NewSqlError`, `writeInitPacket`,
`readHandshakeResponse`, `WriteError` and `WriteOK`, followed by the theorems
that settle the properties stated about them.

Conventions of the embedding

* A Go `byte` is a natural number; wherever the source converts with
  `byte(x)` the embedding reduces modulo 256.  Wider unsigned integers are
  naturals too, and a theorem that needs the width of a value says so.
* A Go `string` and the visible part of a `[]byte` are both lists of bytes.
* A Go slice is its visible elements together with the spare capacity that
  follows them in the backing array: a slice expression is checked against
  the capacity, an index expression against the length, exactly as the Go
  run time does, and a failed check is a run-time panic.
* The connection is explicit state.  Every call that crosses the boundary of
  the file (`writePacket`, `readPacket`, `SetCap`, `CheckAuth`,
  `ResetSequence`, `cleanup`) is recorded in a trace.
-/

namespace Mysql

/-! ## Values -/

abbrev Bytes := List Nat

/-- Go conversion `byte(x)` of an unsigned integer. -/
def byte (x : Nat) : Nat := x % 256

/-- Go conversion `uint64(x)` of an `int64`. -/
def uint64 (x : Int) : Nat := (x % 18446744073709551616).toNat

/-- Go slice of bytes: the visible elements, then the rest of the backing array
up to the capacity. -/
structure Slice where
  bytes : Bytes
  spare : Bytes
deriving DecidableEq, Repr

namespace Slice

def len (s : Slice) : Nat := s.bytes.length

def cap (s : Slice) : Nat := s.bytes.length + s.spare.length

/-- Slice expression `s[lo:hi]`, defined when `0 <= lo <= hi <= cap(s)`. -/
def slice (s : Slice) (lo hi : Int) : Option Slice :=
  if 0 ≤ lo ∧ lo ≤ hi ∧ hi ≤ (s.cap : Int) then
    some { bytes := ((s.bytes ++ s.spare).drop lo.toNat).take (hi.toNat - lo.toNat)
           spare := (s.bytes ++ s.spare).drop hi.toNat }
  else none

/-- Slice expression `s[lo:]`, that is `s[lo:len(s)]`. -/
def sliceFrom (s : Slice) (lo : Int) : Option Slice :=
  if 0 ≤ lo ∧ lo ≤ (s.len : Int) then
    some { bytes := s.bytes.drop lo.toNat, spare := s.spare }
  else none

/-- Slice expression `s[:hi]`, that is `s[0:hi]`. -/
def sliceTo (s : Slice) (hi : Int) : Option Slice := s.slice 0 hi

/-- Index expression `s[i]`, defined when `0 <= i < len(s)`. -/
def index (s : Slice) (i : Int) : Option Nat :=
  if 0 ≤ i ∧ i < (s.len : Int) then s.bytes.get? i.toNat else none

end Slice

/-- Position of the first `b` in `s`, or `-1`: Go `bytes.IndexByte`. -/
def IndexByte : Bytes → Nat → Int
  | [], _ => -1
  | x :: xs, b => if x = b then 0 else
      match IndexByte xs b with
      | Int.negSucc _ => -1
      | Int.ofNat k => Int.ofNat (k + 1)

/-- Go `binary.LittleEndian.Uint32` on the visible bytes of a slice; it indexes
`b[3]` first, so fewer than four bytes is a panic. -/
def Uint32 (b : Slice) : Option Nat :=
  match b.bytes with
  | b0 :: b1 :: b2 :: b3 :: _ =>
      some ((b0 + b1 * 256 + b2 * 65536 + b3 * 16777216) % 4294967296)
  | _ => none

/-! ## Errors -/

/-- Server-side error `SqlError`: the embedded `MySQLError` contributes `Number`
and `Message`. -/
structure SqlError where
  Number : Nat
  Message : Bytes
  State : Bytes
deriving DecidableEq, Repr

/-- Non-nil Go `error` values met in this file: a `*SqlError`, an error wrapped
by `errors.Trace`, or a value of any other error type with its `Error()` text. -/
inductive GoError where
  | sql (e : SqlError)
  | traced (prev : GoError)
  | other (msg : Bytes)
deriving DecidableEq, Repr

/-- Argument of a variadic `...interface{}` parameter. -/
inductive GoValue where
  | str (s : Bytes)
  | int (n : Int)
deriving DecidableEq, Repr

/-- Package-level names that `server.go` uses and other files of the package
declare: the capability bits, the error codes, the two error tables with the
default state, the formatting functions of `fmt`, the `Error` method of the
embedded `MySQLError`, and the length-encoded-integer encoder.  The general
theorems below hold for all values of these. -/
structure Env where
  clientConnectWithDB : Nat
  clientProtocol41 : Nat
  ER_ACCESS_DENIED_ERROR : Nat
  ER_UNKNOWN_ERROR : Nat
  MySQLState : Nat → Option Bytes
  MySQLErrName : Nat → Option Bytes
  DEFAULT_MYSQL_STATE : Bytes
  Sprintf : Bytes → List GoValue → Bytes
  Sprint : List GoValue → Bytes
  MySQLErrorText : Nat → Bytes → Bytes
  PutLengthEncodedInt : Nat → Bytes

/-- Modelled from the spec: the marker byte that opens an OK packet (section 6:
leading marker byte 0x00); the constant is declared outside server.go. -/
def OK : Nat := 0x00

/-- Modelled from the spec: the marker byte that opens an ERR packet (section 6:
leading marker byte 0xFF); the constant is declared outside server.go. -/
def ERR : Nat := 0xFF

/-- Go `errors.Cause`: the error at the bottom of a chain of `errors.Trace`. -/
def GoError.Cause : GoError → GoError
  | .traced prev => prev.Cause
  | e => e

/-- Go `e.Error()`.  A traced error without annotation prints the error it wraps. -/
def GoError.Error (env : Env) : GoError → Bytes
  | .sql e => env.MySQLErrorText e.Number e.Message
  | .traced prev => prev.Error env
  | .other msg => msg

/-- Go `errors.Trace` applied to a non-nil error. -/
def Trace (e : GoError) : GoError := .traced e

def NewSqlError (env : Env) (errno : Nat) (args : List GoValue) : SqlError :=
  let State :=
    match env.MySQLState errno with
    | some s => s
    | none => env.DEFAULT_MYSQL_STATE
  let Message :=
    match env.MySQLErrName errno with
    | some format => env.Sprintf format args
    | none => env.Sprint args
  { Number := errno, Message := Message, State := State }

/-! ## The connection -/

/-- Modelled from the spec: the driver result record that `MySQLResult` embeds by
pointer and whose declaration is outside server.go; it holds the affected-rows
and last-insert-id counters that section 4.2 says an OK packet always emits. -/
structure mysqlResult where
  affectedRows : Int
  insertId : Int
deriving DecidableEq, Repr

/-- Go `MySQLResult`: the embedded `*mysqlResult` may be nil. -/
structure MySQLResult where
  mysqlResult : Option mysqlResult
  Status : Nat
  Warnings : Nat
deriving DecidableEq, Repr

/-- Implementation of the `MySQLServer` interface: each getter reads a field,
`SetCap` replaces `cap`, and `CheckAuth` answers nil (`none`) or an error. -/
structure MySQLServer where
  ConnID : Nat
  Salt : Slice
  Collation : Nat
  Status : Nat
  cap : Nat
  DefaultDB : Bytes
  ServerName : Bytes
  CheckAuth : Bytes → Bytes → Bytes → Option GoError

/-- The identity's values fit the Go types of the interface. -/
def MySQLServer.wellTyped (s : MySQLServer) : Prop :=
  s.ConnID < 4294967296 ∧ s.Collation < 256 ∧ s.Status < 65536 ∧ s.cap < 4294967296

/-- Calls that leave the file, in the order they happen. -/
inductive Event where
  | writePacket (data : Bytes)
  | readPacket
  | SetCap (c : Nat)
  | CheckAuth (user auth db : Bytes)
  | ResetSequence
  | cleanup
deriving DecidableEq, Repr

/-- Go `net.Conn` together with the packet layer of the embedded `mysqlConn`,
seen through its contract: `readResult` is what `readPacket` returns,
`writeResult k` what call number `k` of `writePacket` returns, and
`takeSmallBuffer n` the slice the connection buffer hands out when asked for
`n` bytes. -/
structure NetConn where
  remoteAddr : Bytes
  readResult : GoError ⊕ Slice
  writeResult : Nat → Option GoError
  takeSmallBuffer : Nat → Bytes

/-- State of a `MySQLServerConn`: the identity, the connection, the number of
packets written so far and the trace of calls. -/
structure Conn where
  srv : MySQLServer
  netConn : NetConn
  writes : Nat
  trace : List Event

/-- Outcome of running a piece of Go code: it returns a value, or it panics;
the state reached is kept in both cases. -/
inductive Res (α : Type) where
  | ok (a : α) (c : Conn)
  | panic (c : Conn)

def Res.conn : Res α → Conn
  | .ok _ c => c
  | .panic c => c

def Res.value : Res α → Option α
  | .ok a _ => some a
  | .panic _ => none

def Res.panicked : Res α → Bool
  | .ok _ _ => false
  | .panic _ => true

/-- Go code acting on a connection. -/
def Go (α : Type) : Type := Conn → Res α

def Go.pure (a : α) : Go α := fun c => .ok a c

def Go.bind (m : Go α) (f : α → Go β) : Go β := fun c =>
  match m c with
  | .ok a c1 => f a c1
  | .panic c1 => .panic c1

instance : Monad Go where
  pure := Go.pure
  bind := Go.bind

/-- Run-time check: the value of a checked expression, or a panic. -/
def check : Option α → Go α
  | some a => fun c => .ok a c
  | none => fun c => .panic c

def emit (e : Event) : Go Unit := fun c => .ok () { c with trace := c.trace ++ [e] }

def ConnID : Go Nat := fun c => .ok c.srv.ConnID c

def Salt : Go Slice := fun c => .ok c.srv.Salt c

def Collation : Go Nat := fun c => .ok c.srv.Collation c

def Status : Go Nat := fun c => .ok c.srv.Status c

def Cap : Go Nat := fun c => .ok c.srv.cap c

def ServerName : Go Bytes := fun c => .ok c.srv.ServerName c

def RemoteAddr : Go Bytes := fun c => .ok c.netConn.remoteAddr c

def SetCap (v : Nat) : Go Unit := fun c =>
  .ok () { c with srv := { c.srv with cap := v }, trace := c.trace ++ [.SetCap v] }

def CheckAuth (user auth db : Bytes) : Go (Option GoError) := fun c =>
  .ok (c.srv.CheckAuth user auth db) { c with trace := c.trace ++ [.CheckAuth user auth db] }

def ResetSequence : Go Unit := emit .ResetSequence

def cleanup : Go Unit := emit .cleanup

def writePacket (data : Bytes) : Go (Option GoError) := fun c =>
  .ok (c.netConn.writeResult c.writes)
    { c with writes := c.writes + 1, trace := c.trace ++ [.writePacket data] }

def readPacket : Go (GoError ⊕ Slice) := fun c =>
  .ok c.netConn.readResult { c with trace := c.trace ++ [.readPacket] }

def takeSmallBuffer (n : Nat) : Go Bytes := fun c => .ok (c.netConn.takeSmallBuffer n) c

/-! ## Server-side initialisation -/

def writeInitPacket : Go (Option GoError) := do
  -- preserved for write head
  let data : Bytes := [0, 0, 0, 0]
  -- min version 10
  let data := data ++ [10]
  -- server version[00]
  let data := data ++ (← ServerName)
  let data := data ++ [0]
  -- connection id
  let data := data ++ [byte (← ConnID), byte ((← ConnID) >>> 8), byte ((← ConnID) >>> 16),
    byte ((← ConnID) >>> 24)]
  -- auth-plugin-data-part-1
  let data := data ++ (← check ((← Salt).slice 0 8)).bytes
  -- filter [00]
  let data := data ++ [0]
  -- capability flag lower 2 bytes
  let data := data ++ [byte (← Cap), byte ((← Cap) >>> 8)]
  -- charset
  let data := data ++ [byte (← Collation)]
  -- status
  let data := data ++ [byte (← Status), byte ((← Status) >>> 8)]
  -- capability flag upper 2 bytes
  let data := data ++ [byte ((← Cap) >>> 16), byte ((← Cap) >>> 24)]
  -- filter
  let data := data ++ [0x00]
  -- reserved 10 [00]
  let data := data ++ [0, 0, 0, 0, 0, 0, 0, 0, 0, 0]
  -- auth-plugin-data-part-2
  let data := data ++ (← check ((← Salt).sliceFrom 8)).bytes
  -- filter [00]
  let data := data ++ [0]
  match (← writePacket data) with
  | some err => return some err
  | none => return none

/-- Bytes of the Go string literal "Yes". -/
def yes : Bytes := [89, 101, 115]

def readHandshakeResponse (env : Env) : Go (Option GoError) := do
  match (← readPacket) with
  | .inl err => return some err
  | .inr data =>
    let pos : Int := 0
    -- capability
    SetCap (← check (Uint32 (← check (data.sliceTo 4))))
    let pos := pos + 4
    -- skip max packet size
    let pos := pos + 4
    -- charset, skip
    let pos := pos + 1
    -- skip reserved 23[00]
    let pos := pos + 23
    -- user name
    let user := (← check (data.slice pos
      (pos + IndexByte (← check (data.sliceFrom pos)).bytes 0))).bytes
    let pos := pos + user.length + 1
    -- auth length and auth
    let authLen : Int := (← check (data.index pos))
    let pos := pos + 1
    let auth ← check (data.slice pos (pos + authLen))
    let pos := pos + authLen
    if (← Cap) &&& env.clientConnectWithDB = 0 then
      match (← CheckAuth user auth.bytes []) with
      | some err => return some err
      | none => return none
    else
      -- connect must with db, otherwise it will deny the access
      if (← check (data.sliceFrom pos)).len = 0 then
        return some (Trace (.sql (NewSqlError env env.ER_ACCESS_DENIED_ERROR
          [.str (← RemoteAddr), .str user, .str yes])))
      else
        let db := (← check (data.slice pos
          (pos + IndexByte (← check (data.sliceFrom pos)).bytes 0))).bytes
        -- pos += len(db) + 1: the position is not read again
        -- check with user
        match (← CheckAuth user auth.bytes db) with
        | some err => return some err
        | none => return none

/-! ## Packets sent to the client -/

/-- Modelled from the spec: the promoted method `RowsAffected` of the embedded
result, declared outside server.go.  Section 4.2 has an omitted result
synthesized with zero affected-rows, so on the nil embedded result that
`WriteOK` builds the method answers 0; on a result it answers its counter. -/
def RowsAffected : Option mysqlResult → Int × Option GoError
  | some res => (res.affectedRows, none)
  | none => (0, none)

/-- Modelled from the spec: the promoted method `LastInsertId` of the embedded
result, declared outside server.go.  Section 4.2 has an omitted result
synthesized with zero insert-id, so on the nil embedded result that `WriteOK`
builds the method answers 0; on a result it answers its counter. -/
def LastInsertId : Option mysqlResult → Int × Option GoError
  | some res => (res.insertId, none)
  | none => (0, none)

/-- The type assertion `e.(*SqlError)` of `WriteError`, with the fallback taken
when it fails. -/
def asSqlError (env : Env) (e : GoError) : SqlError :=
  match e with
  | .sql m => m
  | _ => NewSqlError env env.ER_UNKNOWN_ERROR [.str (e.Error env)]

def WriteError (env : Env) (e : GoError) : Go (Option GoError) := do
  let m := asSqlError env e
  let data ← takeSmallBuffer (16 + m.Message.length)
  let data := data ++ [ERR]
  let data := data ++ [byte m.Number, byte (m.Number >>> 8)]
  let data := if (← Cap) &&& env.clientProtocol41 > 0 then (data ++ [0x23]) ++ m.State else data
  let data := data ++ m.Message
  writePacket data

def WriteOK (env : Env) (r : Option MySQLResult) : Go (Option GoError) := do
  let r : MySQLResult ← match r with
    | some r => pure r
    | none => do pure { mysqlResult := none, Status := (← Status), Warnings := 0 }
  let data ← takeSmallBuffer 32
  let data := data ++ [OK]
  let (rows, _) := RowsAffected r.mysqlResult
  let (insertId, _) := LastInsertId r.mysqlResult
  let data := data ++ env.PutLengthEncodedInt (uint64 rows)
  let data := data ++ env.PutLengthEncodedInt (uint64 insertId)
  let data :=
    if (← Cap) &&& env.clientProtocol41 > 0 then
      (data ++ [byte r.Status, byte (r.Status >>> 8)]) ++ [byte r.Warnings, byte (r.Warnings >>> 8)]
    else data
  writePacket data

/-! ## Handshake -/

/-- Connection state at the entry of `Handshake`. -/
def newConn (s : MySQLServer) (conn : NetConn) : Conn :=
  { srv := s, netConn := conn, writes := 0, trace := [] }

/-- Body of `Handshake` after the connection object is built.  The first
component of the result tells whether the session pointer returned is non-nil. -/
def handshakeSteps (env : Env) : Go (Bool × Option GoError) := do
  match (← writeInitPacket) with
  | some err =>
    cleanup
    return (false, some (Trace err))
  | none =>
    match (← readHandshakeResponse env) with
    | some err =>
      let _ ← WriteError env err
      cleanup
      return (false, some (Trace err))
    | none =>
      match (← WriteOK env none) with
      | some err =>
        cleanup
        return (false, some (Trace err))
      | none =>
        ResetSequence
        return (true, none)

def Handshake (env : Env) (s : MySQLServer) (conn : NetConn) : Res (Bool × Option GoError) :=
  handshakeSteps env (newConn s conn)

/-! ## Reading a trace -/

/-- Arguments of the `SetCap` calls of a trace, in order. -/
def setCapArgs : List Event → List Nat
  | [] => []
  | .SetCap v :: es => v :: setCapArgs es
  | _ :: es => setCapArgs es

/-- Arguments of the `CheckAuth` calls of a trace, in order. -/
def checkAuthCalls : List Event → List (Bytes × Bytes × Bytes)
  | [] => []
  | .CheckAuth u a d :: es => (u, a, d) :: checkAuthCalls es
  | _ :: es => checkAuthCalls es

/-- Packets handed to `writePacket` in a trace, in order. -/
def packetsWritten : List Event → List Bytes
  | [] => []
  | .writePacket data :: es => data :: packetsWritten es
  | _ :: es => packetsWritten es

/-! ## Wire layouts as the protocol states them -/

/-- Two little-endian bytes of `x`. -/
def le16 (x : Nat) : Bytes := [x % 256, x / 256 % 256]

/-- Four little-endian bytes of `x`. -/
def le32 (x : Nat) : Bytes := [x % 256, x / 256 % 256, x / 65536 % 256, x / 16777216 % 256]

/-- Value of two little-endian bytes. -/
def decode16 : Bytes → Option Nat
  | [b0, b1] => some (b0 + b1 * 256)
  | _ => none

/-- Greeting payload in protocol order: version 10, server name and NUL,
connection id, first salt fragment, filler, low capability half, collation,
status, high capability half, filler, ten reserved bytes, second salt
fragment, filler. -/
def greetingLayout (s : MySQLServer) : Bytes :=
  [10] ++ s.ServerName ++ [0] ++ le32 s.ConnID ++ s.Salt.bytes.take 8 ++ [0]
    ++ le16 (s.cap % 65536) ++ [s.Collation] ++ le16 s.Status ++ le16 (s.cap / 65536)
    ++ [0] ++ List.replicate 10 0 ++ s.Salt.bytes.drop 8 ++ [0]

/-- Handshake response of a client: capability word, 28 skipped bytes, user and
NUL, auth length byte and auth bytes, and the database and NUL when the word
has the connect-with-database bit. -/
def encodeResponse (env : Env) (c : Nat) (skip u a d : Bytes) : Bytes :=
  le32 c ++ skip ++ u ++ [0] ++ [byte a.length] ++ a ++
    (if c &&& env.clientConnectWithDB = 0 then [] else d ++ [0])

/-- Bytes of an OK packet with the given counters, status and warning count on
a connection with capability flags `cap`. -/
def okLayout (env : Env) (cap rows insertId status warnings : Nat) : Bytes :=
  [0x00] ++ env.PutLengthEncodedInt rows ++ env.PutLengthEncodedInt insertId
    ++ (if cap &&& env.clientProtocol41 = 0 then [] else le16 status ++ le16 warnings)

/-- Bytes of an ERR packet for error `m` on a connection with capability flags
`cap`. -/
def errLayout (env : Env) (cap : Nat) (m : SqlError) : Bytes :=
  [0xFF] ++ le16 m.Number ++ (if cap &&& env.clientProtocol41 = 0 then [] else [0x23] ++ m.State)
    ++ m.Message

/-! ## A concrete package environment and concrete connections -/

/-- Bytes of an ASCII string literal. -/
def ascii (s : String) : Bytes := s.toList.map Char.toNat

/-- Decimal text of an integer. -/
def formatInt (n : Int) : Bytes :=
  match n with
  | Int.ofNat k => (Nat.toDigits 10 k).map Char.toNat
  | Int.negSucc k => 45 :: (Nat.toDigits 10 (k + 1)).map Char.toNat

/-- Text of an operand under the verbs `%v` and `%s`. -/
def operandText : GoValue → Bytes
  | .str s => s
  | .int n => formatInt n

/-- Go `fmt.Sprint` on strings and integers: operands in their default format,
a space between two operands when neither is a string. -/
def goSprint : List GoValue → Bytes
  | [] => []
  | [v] => operandText v
  | .int n :: .int k :: rest => formatInt n ++ 32 :: goSprint (.int k :: rest)
  | v :: w :: rest => operandText v ++ goSprint (w :: rest)

/-- Go `parsenum`: the leading decimal digits of a format as a number, and the
rest; `none` when a digit follows a value above 1000000, where `fmt` gives up
on the number and on the rest of the format. -/
def takeNumber : Bytes → Nat → Option (Nat × Bytes)
  | x :: xs, acc =>
    if 48 ≤ x ∧ x ≤ 57 then
      if acc > 1000000 then none else takeNumber xs (acc * 10 + (x - 48))
    else some (acc, x :: xs)
  | [], acc => some (acc, [])

/-- Leading `-` flags of a directive: whether there is one, and the rest. -/
def takeMinus : Bytes → Bool × Bytes
  | 45 :: r => (true, (takeMinus r).2)
  | r => (false, r)

/-- Whether `b` is a UTF-8 continuation byte. -/
def isCont (b : Nat) : Bool := decide (0x80 ≤ b ∧ b ≤ 0xBF)

/-- Number of bytes of the first rune of a string as Go decodes UTF-8: a byte
that does not start a well-formed sequence is a rune of its own. -/
def runeWidth : Bytes → Nat
  | [] => 0
  | b0 :: rest =>
    if b0 < 0x80 then 1
    else if 0xC2 ≤ b0 ∧ b0 ≤ 0xDF then
      match rest with
      | b1 :: _ => if isCont b1 then 2 else 1
      | _ => 1
    else if 0xE0 ≤ b0 ∧ b0 ≤ 0xEF then
      match rest with
      | b1 :: b2 :: _ =>
        if (if b0 = 0xE0 then 0xA0 else 0x80) ≤ b1 ∧ b1 ≤ (if b0 = 0xED then 0x9F else 0xBF)
            ∧ isCont b2 then 3 else 1
      | _ => 1
    else if 0xF0 ≤ b0 ∧ b0 ≤ 0xF4 then
      match rest with
      | b1 :: b2 :: b3 :: _ =>
        if (if b0 = 0xF0 then 0x90 else 0x80) ≤ b1 ∧ b1 ≤ (if b0 = 0xF4 then 0x8F else 0xBF)
            ∧ isCont b2 ∧ isCont b3 then 4 else 1
      | _ => 1
    else 1

/-- The first `p` runes of a string. -/
def takeRunes : Nat → Bytes → Bytes
  | 0, _ => []
  | _ + 1, [] => []
  | p + 1, b :: rest =>
    (b :: rest).take (runeWidth (b :: rest)) ++ takeRunes p ((b :: rest).drop (runeWidth (b :: rest)))

/-- Number of runes among the bytes of a string; `fuel` bounds the steps by the
number of bytes. -/
def runeCountAux : Nat → Bytes → Nat
  | 0, _ => 0
  | _ + 1, [] => 0
  | fuel + 1, b :: rest => runeCountAux fuel ((b :: rest).drop (runeWidth (b :: rest))) + 1

def runeCount (s : Bytes) : Nat := runeCountAux s.length s

/-- Text padded with spaces to `width` runes, on the right under the flag `-`
and on the left otherwise. -/
def pad (minus : Bool) (width : Nat) (t : Bytes) : Bytes :=
  if minus then t ++ List.replicate (width - runeCount t) 32
  else List.replicate (width - runeCount t) 32 ++ t

/-- String under the verbs `%s` and `%v`: cut to the precision, counted in
runes, then padded. -/
def fmtString (minus : Bool) (width : Nat) (prec : Option Nat) (s : Bytes) : Bytes :=
  pad minus width (match prec with
    | some p => takeRunes p s
    | none => s)

/-- Integer under the verbs `%d` and `%v`: at least as many digits as the
precision, the sign, then the padding; precision 0 prints nothing for 0. -/
def fmtInteger (minus : Bool) (width : Nat) (prec : Option Nat) (n : Int) : Bytes :=
  if prec = some 0 ∧ n = 0 then List.replicate width 32
  else
    let digits : Bytes := (Nat.toDigits 10 n.natAbs).map Char.toNat
    let digits := List.replicate (prec.getD 0 - digits.length) 48 ++ digits
    pad minus width (if n < 0 then 45 :: digits else digits)

/-- Operand under the verb `%v`. -/
def fmtValue (minus : Bool) (width : Nat) (prec : Option Nat) : GoValue → Bytes
  | .str s => fmtString minus width prec s
  | .int n => fmtInteger minus width prec n

/-- Type name of an operand. -/
def typeName : GoValue → Bytes
  | .str _ => ascii "string"
  | .int _ => ascii "int"

/-- Note `fmt` prints for an operand under a verb its type does not have: the
operand appears as under `%v`, with the flags of the directive. -/
def badVerb (minus : Bool) (width : Nat) (prec : Option Nat) (verb : Nat) (v : GoValue) : Bytes :=
  ascii "%!" ++ verb :: 40 :: typeName v ++ 61 :: fmtValue minus width prec v ++ [41]

/-- Output of one directive that has an operand. -/
def directive (minus : Bool) (width : Nat) (prec : Option Nat) (verb : Nat) (v : GoValue) :
    Bytes :=
  match verb, v with
  | 115, .str s => fmtString minus width prec s
  | 118, _ => fmtValue minus width prec v
  | 100, .int n => fmtInteger minus width prec n
  | _, _ => badVerb minus width prec verb v

/-- Note `fmt` appends for operands the format did not consume. -/
def extraNote : List GoValue → Bytes
  | [] => []
  | v :: vs => ascii "%!(EXTRA " ++ typeName v ++ 61 :: fmtValue false 0 none v
      ++ (vs.map fun w => ascii ", " ++ typeName w ++ 61 :: fmtValue false 0 none w).flatten
      ++ ascii ")"

/-- Go `fmt.Sprintf` on strings and integers (Go `int`), for formats made of
literal text and of directives with the flag `-`, a width (digits that do not
start with 0, which is a flag), a precision and one of the verbs `%s`, `%v`,
`%d`, `%%`: the directives of the templates in the table of `mysqlEnv`.  The
other flags, `*`, argument indexes and the other verbs of `fmt` are not
modelled.  `fuel` bounds the number of steps by the length of the format. -/
def goSprintfAux : Nat → Bytes → List GoValue → Bytes
  | 0, _, _ => []
  | _ + 1, [], args => extraNote args
  | fuel + 1, 37 :: rest, args =>
    let (minus, rest) := takeMinus rest
    match takeNumber rest 0 with
    | none => ascii "%!(NOVERB)" ++ extraNote args
    | some (width, rest) =>
      let parsed : Option (Option Nat × Bytes) := match rest with
        | 46 :: r => (takeNumber r 0).map fun (p, r2) => (some p, r2)
        | r => some (none, r)
      match parsed with
      | none => ascii "%!(NOVERB)" ++ extraNote args
      | some (_, []) => ascii "%!(NOVERB)" ++ extraNote args
      | some (_, 37 :: rest) => 37 :: goSprintfAux fuel rest args
      | some (prec, verb :: rest) =>
        match args with
        | [] => ascii "%!" ++ verb :: ascii "(MISSING)" ++ goSprintfAux fuel rest []
        | v :: vs => directive minus width prec verb v ++ goSprintfAux fuel rest vs
  | fuel + 1, x :: rest, args => x :: goSprintfAux fuel rest args

def goSprintf (format : Bytes) (args : List GoValue) : Bytes :=
  goSprintfAux (format.length + 1) format args

/-- Standard length-encoded integer of the protocol. -/
def lengthEncodedInt (n : Nat) : Bytes :=
  if n ≤ 250 then [byte n]
  else if n ≤ 0xffff then [0xfc, byte n, byte (n >>> 8)]
  else if n ≤ 0xffffff then [0xfd, byte n, byte (n >>> 8), byte (n >>> 16)]
  else [0xfe, byte n, byte (n >>> 8), byte (n >>> 16), byte (n >>> 24), byte (n >>> 32),
    byte (n >>> 40), byte (n >>> 48), byte (n >>> 56)]

/-- Package environment with the MySQL values: capability bits 8 and 512, codes
1045 (access denied, state 28000) and 1105 (unknown error, state HY000), the
templates of these two codes, and default state HY000. -/
def mysqlEnv : Env where
  clientConnectWithDB := 8
  clientProtocol41 := 512
  ER_ACCESS_DENIED_ERROR := 1045
  ER_UNKNOWN_ERROR := 1105
  MySQLState := fun n =>
    if n = 1045 then some (ascii "28000") else if n = 1105 then some (ascii "HY000") else none
  MySQLErrName := fun n =>
    if n = 1045 then some (ascii "Access denied for user " ++ 39 :: ascii "%-.48s" ++ 39 :: 64 :: 39
      :: ascii "%-.64s" ++ 39 :: ascii " (using password: %s)")
    else if n = 1105 then some (ascii "Unknown error") else none
  DEFAULT_MYSQL_STATE := ascii "HY000"
  Sprintf := goSprintf
  Sprint := goSprint
  MySQLErrorText := fun n msg => ascii "Error " ++ formatInt n ++ ascii ": " ++ msg
  PutLengthEncodedInt := lengthEncodedInt

/-- Credential check that accepts the user root and denies everybody else. -/
def rootOnly (user _auth _db : Bytes) : Option GoError :=
  if user = ascii "root" then none
  else some (.sql (NewSqlError mysqlEnv 1045 [.str user, .str (ascii "localhost"), .str yes]))

/-- Identity of the end-to-end scenario: connection id 7, twenty non-zero salt
bytes, collation 33, status 2, protocol-41 offered without connect-with-db. -/
def srv7 : MySQLServer where
  ConnID := 7
  Salt := ⟨[1, 2, 3, 4, 5, 6, 7, 8, 9, 10, 11, 12, 13, 14, 15, 16, 17, 18, 19, 20], []⟩
  Collation := 33
  Status := 2
  cap := 512
  DefaultDB := []
  ServerName := ascii "5.5.0"
  CheckAuth := rootOnly

/-- Client whose single packet is `pkt`, read into a buffer that still holds
`stale` behind it; every write succeeds and the small buffer is handed out
empty. -/
def client (pkt stale : Bytes) : NetConn where
  remoteAddr := ascii "10.0.0.9:4000"
  readResult := .inr ⟨pkt, stale⟩
  writeResult := fun _ => none
  takeSmallBuffer := fun _ => []

/-- The 28 bytes between the capability word and the user name, all zero. -/
def zeros28 : Bytes := List.replicate 28 0

/-- Response of user root with an empty auth field and capability word `c`,
without a database field. -/
def rootResponse (c : Nat) : Bytes := le32 c ++ zeros28 ++ ascii "root" ++ [0] ++ [0]

/-- Response whose user name has no NUL terminator. -/
def unterminatedUser : Bytes := le32 512 ++ zeros28 ++ ascii "root"

/-- Response announcing five auth bytes and carrying one. -/
def shortAuth : Bytes := le32 512 ++ zeros28 ++ ascii "root" ++ [0] ++ [5, 1]


/-- Last steps of `Handshake`, taken once `readHandshakeResponse` has returned
nil: the OK packet, then the reset of the sequence counter. -/
def acceptSteps (env : Env) : Go (Bool × Option GoError) := do
  match (← WriteOK env none) with
  | some err =>
    cleanup
    return (false, some (Trace err))
  | none =>
    ResetSequence
    return (true, none)

/-- Number of calls of `ResetSequence` in a trace. -/
def resetCount : List Event → Nat
  | [] => 0
  | .ResetSequence :: es => resetCount es + 1
  | _ :: es => resetCount es

/-- Number of calls of `cleanup` in a trace. -/
def cleanupCount : List Event → Nat
  | [] => 0
  | .cleanup :: es => cleanupCount es + 1
  | _ :: es => cleanupCount es

/-- Number of calls of `readPacket` in a trace. -/
def readCount : List Event → Nat
  | [] => 0
  | .readPacket :: es => readCount es + 1
  | _ :: es => readCount es

/-- The scenario identity with a salt of 21 bytes. -/
def srv21 : MySQLServer :=
  { srv7 with
    Salt := ⟨[1, 2, 3, 4, 5, 6, 7, 8, 9, 10, 11, 12, 13, 14, 15, 16, 17, 18, 19, 20, 21], []⟩ }

/-- Response of user bob with an empty auth field under capability word 0
(no protocol-41, no database). -/
def bobResponse : Bytes := le32 0 ++ zeros28 ++ ascii "bob" ++ [0] ++ [0]

/-- Client whose connection fails when the server reads: `readPacket` returns
the driver's bad-connection error. -/
def deadClient : NetConn where
  remoteAddr := ascii "10.0.0.9:4000"
  readResult := .inl (.other (ascii "driver: bad connection"))
  writeResult := fun _ => none
  takeSmallBuffer := fun _ => []

/-- Client to which no write succeeds. -/
def deafClient : NetConn where
  remoteAddr := ascii "10.0.0.9:4000"
  readResult := .inr ⟨rootResponse 512, []⟩
  writeResult := fun _ => some (.other (ascii "broken pipe"))
  takeSmallBuffer := fun _ => []

/-- Handshake response like `encodeResponse`, with the bytes `trail` following
its last field. -/
def responseWith (env : Env) (c : Nat) (skip u a d trail : Bytes) : Bytes :=
  le32 c ++ skip ++ u ++ [0] ++ [byte a.length] ++ a ++
    (if c &&& env.clientConnectWithDB = 0 then trail else d ++ [0] ++ trail)

/-- The connection `conn` when `readPacket` is about to return `pkt`, read into
a buffer that holds `spare` behind it. -/
def receiving (conn : Conn) (pkt spare : Bytes) : Conn :=
  { conn with netConn := { conn.netConn with readResult := .inr ⟨pkt, spare⟩ } }

/-- Client that takes the greeting and answers as user root, and to which the
second write fails. -/
def closingClient : NetConn where
  remoteAddr := ascii "10.0.0.9:4000"
  readResult := .inr ⟨rootResponse 512, []⟩
  writeResult := fun k => if k = 1 then some (.other (ascii "broken pipe")) else none
  takeSmallBuffer := fun _ => []

/-! ## Texts the error model is compared with -/

/-- Whether an operand is a string. -/
def GoValue.isString : GoValue → Bool
  | .str _ => true
  | .int _ => false

/-- Textual concatenation of the operands: their texts one after the other. -/
def concatText (args : List GoValue) : Bytes := (args.map operandText).flatten

/-- Texts of the operands in order; `prev` tells that an operand precedes and
is not a string, in which case a space goes before an operand that is not a
string either. -/
def spacedAux : Bool → List GoValue → Bytes
  | _, [] => []
  | prev, v :: vs =>
    (if prev && !v.isString then [32] else []) ++ operandText v ++ spacedAux (!v.isString) vs

/-- Texts of the operands in order, with one space between two neighbours when
neither is a string. -/
def spacedText (args : List GoValue) : Bytes := spacedAux false args

/-- Format made of literal segments with the directive `%s` between two
neighbours. -/
def templateOf : List Bytes → Bytes
  | [] => []
  | [l] => l
  | l :: l2 :: ls => l ++ 37 :: 115 :: templateOf (l2 :: ls)

/-- Literal segments with the strings `ss` in the places between them, in
order. -/
def filledWith : List Bytes → List Bytes → Bytes
  | l :: ls, s :: ss => l ++ s ++ filledWith ls ss
  | l :: _, [] => l
  | [], _ => []

/-! # Theorems -/

/-! ## Slices and byte search -/

theorem IndexByte_terminated (u rest : Bytes) (h : 0 ∉ u) :
    IndexByte (u ++ 0 :: rest) 0 = (u.length : Int) := by
  induction u with
  | nil => simp [IndexByte]
  | cons x xs ih =>
    have hx : x ≠ 0 := fun e => h (by simp [e])
    have hxs : 0 ∉ xs := fun e => h (by simp [e])
    have e := ih hxs
    show (if x = 0 then (0 : Int) else
      match IndexByte (xs ++ 0 :: rest) 0 with
      | Int.negSucc _ => -1
      | Int.ofNat k => Int.ofNat (k + 1)) = _
    rw [if_neg hx, e]
    rfl

theorem slice_mid (pre mid post spare : Bytes) (lo hi : Int) (hlo : lo = pre.length)
    (hhi : hi = pre.length + mid.length) :
    Slice.slice ⟨pre ++ (mid ++ post), spare⟩ lo hi = some ⟨mid, post ++ spare⟩ := by
  subst hlo hhi
  have h1 : ((pre.length : Int) + (mid.length : Int)).toNat = pre.length + mid.length := by omega
  simp only [Slice.slice, Slice.cap, List.length_append, Int.toNat_ofNat, h1]
  rw [if_pos (by constructor <;> [omega; (constructor <;> push_cast <;> omega)])]
  simp [List.append_assoc]

theorem sliceFrom_pre (pre post spare : Bytes) (lo : Int) (hlo : lo = pre.length) :
    Slice.sliceFrom ⟨pre ++ post, spare⟩ lo = some ⟨post, spare⟩ := by
  subst hlo
  simp [Slice.sliceFrom, Slice.len]

theorem index_pre (pre : Bytes) (x : Nat) (post spare : Bytes) (i : Int) (hi : i = pre.length) :
    Slice.index ⟨pre ++ x :: post, spare⟩ i = some x := by
  subst hi
  simp [Slice.index, Slice.len, List.getElem_append]

theorem Uint32_le32 (c : Nat) (hc : c < 4294967296) (sp : Bytes) :
    Uint32 ⟨le32 c, sp⟩ = some c := by
  simp only [Uint32, le32, Option.some.injEq]
  omega

/-! ## The greeting -/

/-- The call `writeInitPacket` makes and the value it returns. -/
theorem writeInitPacket_run (c : Conn) (hs : c.srv.Salt.len = 20) (ht : c.srv.wellTyped) :
    writeInitPacket c = .ok (c.netConn.writeResult c.writes)
      { c with
        writes := c.writes + 1
        trace := c.trace ++ [.writePacket ([0, 0, 0, 0] ++ greetingLayout c.srv)] } := by
  obtain ⟨h1, h2, h3, h4⟩ := ht
  simp only [Slice.len] at hs
  have e1 : c.srv.Salt.slice 0 8
      = some ⟨c.srv.Salt.bytes.take 8, (c.srv.Salt.bytes ++ c.srv.Salt.spare).drop 8⟩ := by
    simp [Slice.slice, Slice.cap, List.take_append_of_le_length, hs]
    omega
  have e2 : c.srv.Salt.sliceFrom 8 = some ⟨c.srv.Salt.bytes.drop 8, c.srv.Salt.spare⟩ := by
    simp [Slice.sliceFrom, Slice.len, hs]
  simp only [writeInitPacket, bind, Go.bind, ServerName, ConnID, Salt, Cap, Collation, Status, e1,
    e2, check, writePacket, pure, Go.pure]
  cases hw : c.netConn.writeResult c.writes <;>
    simp [Go.pure, greetingLayout, le16, le32, byte, Nat.shiftRight_eq_div_pow,
      Nat.mod_eq_of_lt h2] <;> omega

/-- C1: for an identity whose salt has length 20, `writeInitPacket` hands to
`writePacket` four reserved header bytes followed by exactly the greeting
layout (version 10, server name, NUL, connection id little-endian, first
eight salt bytes, filler, low capability half, collation, status, high
capability half, filler, ten zero bytes, last twelve salt bytes, filler) and
returns what `writePacket` returned; the payload has `len(ServerName) + 46`
bytes, byte 0 is 10, the connection-id field decodes to the connection id,
and the two salt fragments concatenate to the salt. -/
theorem writeInitPacket_greeting_layout (c : Conn) (hs : c.srv.Salt.len = 20)
    (ht : c.srv.wellTyped) :
    writeInitPacket c = .ok (c.netConn.writeResult c.writes)
      { c with
        writes := c.writes + 1
        trace := c.trace ++ [.writePacket ([0, 0, 0, 0] ++ greetingLayout c.srv)] }
    ∧ (greetingLayout c.srv).length = c.srv.ServerName.length + 46
    ∧ (greetingLayout c.srv).head? = some 10
    ∧ Uint32 ⟨((greetingLayout c.srv).drop (c.srv.ServerName.length + 2)).take 4, []⟩
        = some c.srv.ConnID
    ∧ ((greetingLayout c.srv).drop (c.srv.ServerName.length + 6)).take 8
        ++ ((greetingLayout c.srv).drop (c.srv.ServerName.length + 33)).take 12
        = c.srv.Salt.bytes := by
  have hrun := writeInitPacket_run c hs ht
  obtain ⟨h1, -, -, -⟩ := ht
  simp only [Slice.len] at hs
  have ht8 : (c.srv.Salt.bytes.take 8).length = 8 := by simp [hs]
  have hd8 : (c.srv.Salt.bytes.drop 8).length = 12 := by simp [hs]
  refine ⟨hrun, ?_, ?_, ?_, ?_⟩
  · simp [greetingLayout, le16, le32, hs]
  · simp [greetingLayout]
  · have e : greetingLayout c.srv = (10 :: c.srv.ServerName ++ [0]) ++ (le32 c.srv.ConnID ++
        (c.srv.Salt.bytes.take 8 ++ [0] ++ le16 (c.srv.cap % 65536) ++ [c.srv.Collation]
          ++ le16 c.srv.Status ++ le16 (c.srv.cap / 65536) ++ [0] ++ List.replicate 10 0
          ++ c.srv.Salt.bytes.drop 8 ++ [0])) := by
      simp [greetingLayout]
    rw [e, List.drop_left' (by simp), List.take_left' (by simp [le32])]
    exact Uint32_le32 _ h1 _
  · have e1 : greetingLayout c.srv = (10 :: c.srv.ServerName ++ [0] ++ le32 c.srv.ConnID) ++
        (c.srv.Salt.bytes.take 8 ++ ([0] ++ le16 (c.srv.cap % 65536) ++ [c.srv.Collation]
          ++ le16 c.srv.Status ++ le16 (c.srv.cap / 65536) ++ [0] ++ List.replicate 10 0
          ++ c.srv.Salt.bytes.drop 8 ++ [0])) := by
      simp [greetingLayout]
    have e2 : greetingLayout c.srv = (10 :: c.srv.ServerName ++ [0] ++ le32 c.srv.ConnID
        ++ c.srv.Salt.bytes.take 8 ++ [0] ++ le16 (c.srv.cap % 65536) ++ [c.srv.Collation]
          ++ le16 c.srv.Status ++ le16 (c.srv.cap / 65536) ++ [0] ++ List.replicate 10 0) ++
        (c.srv.Salt.bytes.drop 8 ++ [0]) := by
      simp [greetingLayout]
    have p1 : ((greetingLayout c.srv).drop (c.srv.ServerName.length + 6)).take 8
        = c.srv.Salt.bytes.take 8 := by
      rw [e1, List.drop_left' (by simp [le32]), List.take_left' ht8]
    have p2 : ((greetingLayout c.srv).drop (c.srv.ServerName.length + 33)).take 12
        = c.srv.Salt.bytes.drop 8 := by
      rw [e2, List.drop_left' (by simp [le32, le16, hs]), List.take_left' hd8]
    rw [p1, p2, List.take_append_drop]

/-- The greeting of the scenario identity: its salt has length 20, its values
fit their types, and the packet written is the layout, 51 bytes long. -/
theorem writeInitPacket_greeting_layout_witness :
    srv7.Salt.len = 20 ∧ srv7.wellTyped ∧
      packetsWritten (writeInitPacket (newConn srv7 (client [] []))).conn.trace
        = [[0, 0, 0, 0] ++ greetingLayout srv7] ∧
      (greetingLayout srv7).length = 5 + 46 :=
  have h := writeInitPacket_greeting_layout (newConn srv7 (client [] [])) (by decide)
    ⟨by decide, by decide, by decide, by decide⟩
  ⟨by decide, ⟨by decide, by decide, by decide, by decide⟩, by rw [h.1]; rfl, h.2.1⟩


/-! ## The handshake response -/

theorem slice_shift (pre tl spare : Bytes) (lo k : Int) (hlo : lo = pre.length) :
    Slice.slice ⟨pre ++ tl, spare⟩ lo (lo + k) = Slice.slice ⟨tl, spare⟩ 0 k := by
  subst hlo
  by_cases hk : 0 ≤ k ∧ k ≤ ((tl.length + spare.length : Nat) : Int)
  · obtain ⟨k0, rfl⟩ := Int.eq_ofNat_of_zero_le hk.1
    have h1 : ((pre.length : Int) + (k0 : Int)).toNat = pre.length + k0 := by omega
    have hk2 : k0 ≤ tl.length + spare.length := by omega
    simp only [Slice.slice, Slice.cap, List.length_append, Int.toNat_ofNat, h1]
    rw [if_pos (by refine ⟨by omega, by omega, ?_⟩; push_cast; omega),
      if_pos (by refine ⟨by omega, by omega, ?_⟩; push_cast; omega)]
    simp [List.append_assoc]
  · simp only [Slice.slice, Slice.cap, List.length_append]
    rw [if_neg (by intro h; apply hk; push_cast at h ⊢; omega),
      if_neg (by intro h; apply hk; push_cast at h ⊢; omega)]

theorem setCapArgs_append (l1 l2 : List Event) :
    setCapArgs (l1 ++ l2) = setCapArgs l1 ++ setCapArgs l2 := by
  induction l1 with
  | nil => rfl
  | cons e es ih => cases e <;> simp [setCapArgs, ih]

/-- What `readHandshakeResponse` does on a response that is well formed up to
its auth field and continues with the bytes `tl`. -/
theorem readHandshakeResponse_parsed (env : Env) (conn : Conn) (c : Nat)
    (skip u a tl spare : Bytes) (hc : c < 4294967296) (hskip : skip.length = 28) (hu : 0 ∉ u)
    (ha : a.length < 256)
    (hr : conn.netConn.readResult
      = .inr ⟨le32 c ++ skip ++ u ++ [0] ++ [byte a.length] ++ a ++ tl, spare⟩) :
    readHandshakeResponse env conn =
      if c &&& env.clientConnectWithDB = 0 then
        .ok (conn.srv.CheckAuth u a [])
          { conn with
            srv := { conn.srv with cap := c }
            trace := conn.trace ++ [.readPacket, .SetCap c, .CheckAuth u a []] }
      else if tl.length = 0 then
        .ok (some (Trace (.sql (NewSqlError env env.ER_ACCESS_DENIED_ERROR
            [.str conn.netConn.remoteAddr, .str u, .str yes]))))
          { conn with
            srv := { conn.srv with cap := c }
            trace := conn.trace ++ [.readPacket, .SetCap c] }
      else
        match Slice.slice ⟨tl, spare⟩ 0 (IndexByte tl 0) with
        | some db =>
          .ok (conn.srv.CheckAuth u a db.bytes)
            { conn with
              srv := { conn.srv with cap := c }
              trace := conn.trace ++ [.readPacket, .SetCap c, .CheckAuth u a db.bytes] }
        | none =>
          .panic
            { conn with
              srv := { conn.srv with cap := c }
              trace := conn.trace ++ [.readPacket, .SetCap c] } := by
  have hp : le32 c ++ skip ++ u ++ [0] ++ [byte a.length] ++ a ++ tl
      = (le32 c ++ skip) ++ (u ++ 0 :: (byte a.length :: (a ++ tl))) := by simp
  have hpre : ((le32 c ++ skip).length : Int) = 32 := by simp [le32, hskip]
  have hbyte : byte a.length = a.length := Nat.mod_eq_of_lt ha
  rw [hp] at hr
  generalize hdata : (⟨(le32 c ++ skip) ++ (u ++ 0 :: (byte a.length :: (a ++ tl))), spare⟩ : Slice)
    = data at hr
  have f1 : data.sliceTo 4
      = some ⟨le32 c, skip ++ (u ++ 0 :: (byte a.length :: (a ++ tl))) ++ spare⟩ := by
    have := slice_mid [] (le32 c) (skip ++ (u ++ 0 :: (byte a.length :: (a ++ tl)))) spare 0 4
      (by simp) (by simp [le32])
    simpa [← hdata, Slice.sliceTo, List.append_assoc] using this
  have f2 : ∀ sp, Uint32 ⟨le32 c, sp⟩ = some c := Uint32_le32 c hc
  have f3 : data.sliceFrom (0 + 4 + 4 + 1 + 23)
      = some ⟨u ++ 0 :: (byte a.length :: (a ++ tl)), spare⟩ := by
    rw [← hdata]
    exact sliceFrom_pre _ _ _ _ (by rw [hpre]; norm_num)
  have f4 : ∀ rest, IndexByte (u ++ 0 :: rest) 0 = (u.length : Int) :=
    fun rest => IndexByte_terminated u rest hu
  have f5 : data.slice (0 + 4 + 4 + 1 + 23) (0 + 4 + 4 + 1 + 23 + (u.length : Int))
      = some ⟨u, (0 :: (byte a.length :: (a ++ tl))) ++ spare⟩ := by
    rw [← hdata]
    exact slice_mid _ _ _ _ _ _ (by rw [hpre]; norm_num) (by rw [hpre]; norm_num)
  have f6 : data.index (0 + 4 + 4 + 1 + 23 + (u.length : Int) + 1) = some (byte a.length) := by
    rw [← hdata, show (le32 c ++ skip) ++ (u ++ 0 :: (byte a.length :: (a ++ tl)))
      = (le32 c ++ skip ++ u ++ [0]) ++ byte a.length :: (a ++ tl) by simp]
    exact index_pre _ _ _ _ _ (by simp [le32, hskip]; ring)
  have f7 : data.slice (0 + 4 + 4 + 1 + 23 + (u.length : Int) + 1 + 1)
      (0 + 4 + 4 + 1 + 23 + (u.length : Int) + 1 + 1 + ((byte a.length : Nat) : Int))
      = some ⟨a, tl ++ spare⟩ := by
    rw [← hdata, show (le32 c ++ skip) ++ (u ++ 0 :: (byte a.length :: (a ++ tl)))
      = (le32 c ++ skip ++ u ++ [0, byte a.length]) ++ (a ++ tl) by simp]
    exact slice_mid _ _ _ _ _ _ (by simp [le32, hskip]; ring) (by simp [le32, hskip, hbyte]; ring)
  have f8 : data.sliceFrom
      (0 + 4 + 4 + 1 + 23 + (u.length : Int) + 1 + 1 + ((byte a.length : Nat) : Int))
      = some ⟨tl, spare⟩ := by
    rw [← hdata, show (le32 c ++ skip) ++ (u ++ 0 :: (byte a.length :: (a ++ tl)))
      = (le32 c ++ skip ++ u ++ [0, byte a.length] ++ a) ++ tl by simp]
    exact sliceFrom_pre _ _ _ _ (by simp [le32, hskip, hbyte]; ring)
  have f9 : ∀ k : Int, data.slice
      (0 + 4 + 4 + 1 + 23 + (u.length : Int) + 1 + 1 + ((byte a.length : Nat) : Int))
      (0 + 4 + 4 + 1 + 23 + (u.length : Int) + 1 + 1 + ((byte a.length : Nat) : Int) + k)
      = Slice.slice ⟨tl, spare⟩ 0 k := by
    intro k
    rw [← hdata, show (le32 c ++ skip) ++ (u ++ 0 :: (byte a.length :: (a ++ tl)))
      = (le32 c ++ skip ++ u ++ [0, byte a.length] ++ a) ++ tl by simp]
    exact slice_shift _ _ _ _ _ (by simp [le32, hskip, hbyte]; ring)
  simp only [readHandshakeResponse, bind, Go.bind, readPacket, hr, f1, check, f2, SetCap, f3,
    f4, f5, f6, f7, Cap]
  by_cases hb : c &&& env.clientConnectWithDB = 0
  · simp only [hb, if_true, Go.bind, CheckAuth, pure, Go.pure]
    cases conn.srv.CheckAuth u a [] <;> simp [Go.pure]
  · by_cases hl : tl.length = 0
    · simp only [hb, if_false, Go.bind, f8, Slice.len, hl, if_true, RemoteAddr, pure, Go.pure]
      simp
    · simp only [hb, hl, if_false, Go.bind, f8, Slice.len, f9]
      cases hs : Slice.slice ⟨tl, spare⟩ 0 (IndexByte tl 0) with
      | none => simp
      | some db =>
        simp only [CheckAuth, pure]
        cases conn.srv.CheckAuth u a db.bytes <;> simp [Go.pure]


/-- C2: decoding undoes encoding of a handshake response.  When `readPacket`
returns the encoding of capability word `c`, 28 skipped bytes, a NUL-free user
`u`, an auth string `a` shorter than 256 bytes and (if `c` has the
connect-with-database bit) a NUL-free database `d`, `readHandshakeResponse`
calls `SetCap(c)`, then `CheckAuth` exactly once, with `(u, a, d)` when the bit
is set and `(u, a, "")` when it is not, and returns what `CheckAuth` returned. -/
theorem readHandshakeResponse_roundtrip (env : Env) (conn : Conn) (c : Nat)
    (skip u a d spare : Bytes) (hc : c < 4294967296) (hskip : skip.length = 28) (hu : 0 ∉ u)
    (ha : a.length < 256) (hd : 0 ∉ d)
    (hr : conn.netConn.readResult = .inr ⟨encodeResponse env c skip u a d, spare⟩) :
    readHandshakeResponse env conn =
      .ok (conn.srv.CheckAuth u a (if c &&& env.clientConnectWithDB = 0 then [] else d))
        { conn with
          srv := { conn.srv with cap := c }
          trace := conn.trace ++ [.readPacket, .SetCap c,
            .CheckAuth u a (if c &&& env.clientConnectWithDB = 0 then [] else d)] } := by
  rw [readHandshakeResponse_parsed env conn c skip u a
    (if c &&& env.clientConnectWithDB = 0 then [] else d ++ [0]) spare hc hskip hu ha
    (by rw [hr]; rfl)]
  by_cases hb : c &&& env.clientConnectWithDB = 0
  · simp only [hb, if_true]
  · have hs : Slice.slice ⟨d ++ [0], spare⟩ 0 (IndexByte (d ++ [0]) 0) = some ⟨d, [0] ++ spare⟩ := by
      rw [IndexByte_terminated d [] hd]
      have := slice_mid [] d [0] spare 0 d.length (by simp) (by simp)
      simpa using this
    simp only [hb, if_false, hs]
    simp

theorem checkAuthCalls_append (l1 l2 : List Event) :
    checkAuthCalls (l1 ++ l2) = checkAuthCalls l1 ++ checkAuthCalls l2 := by
  induction l1 with
  | nil => rfl
  | cons e es ih => cases e <;> simp [checkAuthCalls, ih]

/-- Round trip of the response of user root with auth bytes 1, 2 and database
shop under capability word 520. -/
theorem readHandshakeResponse_roundtrip_witness :
    readHandshakeResponse mysqlEnv
        (newConn srv7 (client (encodeResponse mysqlEnv 520 zeros28 (ascii "root") [1, 2]
          (ascii "shop")) [])) =
      .ok (rootOnly (ascii "root") [1, 2] (ascii "shop"))
        { newConn srv7 (client (encodeResponse mysqlEnv 520 zeros28 (ascii "root") [1, 2]
            (ascii "shop")) []) with
          srv := { srv7 with cap := 520 }
          trace := [.readPacket, .SetCap 520, .CheckAuth (ascii "root") [1, 2] (ascii "shop")] } :=
  readHandshakeResponse_roundtrip mysqlEnv
    (newConn srv7 (client (encodeResponse mysqlEnv 520 zeros28 (ascii "root") [1, 2]
      (ascii "shop")) []))
    520 zeros28 (ascii "root") [1, 2] (ascii "shop") [] (by decide) (by decide) (by decide)
    (by decide) (by decide) rfl

/-- C3, as the code has it: once `readHandshakeResponse` has parsed a response
packet up to the auth field, the one value it passed to `SetCap` is the
capability word `c` sent by the client, and the identity's capability flags are
`c`, whatever flags the identity held (and the greeting offered) before. -/
theorem readHandshakeResponse_setCap_client_word (env : Env) (conn : Conn) (c : Nat)
    (skip u a tl spare : Bytes) (hc : c < 4294967296) (hskip : skip.length = 28) (hu : 0 ∉ u)
    (ha : a.length < 256)
    (hr : conn.netConn.readResult
      = .inr ⟨le32 c ++ skip ++ u ++ [0] ++ [byte a.length] ++ a ++ tl, spare⟩) :
    setCapArgs (readHandshakeResponse env conn).conn.trace = setCapArgs conn.trace ++ [c]
    ∧ (readHandshakeResponse env conn).conn.srv.cap = c := by
  rw [readHandshakeResponse_parsed env conn c skip u a tl spare hc hskip hu ha hr]
  split_ifs
  · simp [Res.conn, setCapArgs_append, setCapArgs]
  · simp [Res.conn, setCapArgs_append, setCapArgs]
  · cases Slice.slice ⟨tl, spare⟩ 0 (IndexByte tl 0) <;>
      simp [Res.conn, setCapArgs_append, setCapArgs]

/-- The response of user root under capability word 512, with two trailing
bytes: `SetCap` receives 512. -/
theorem readHandshakeResponse_setCap_client_word_witness :
    setCapArgs (readHandshakeResponse mysqlEnv
        (newConn srv7 (client (rootResponse 512 ++ [9, 9]) []))).conn.trace = [512]
    ∧ (readHandshakeResponse mysqlEnv
        (newConn srv7 (client (rootResponse 512 ++ [9, 9]) []))).conn.srv.cap = 512 :=
  readHandshakeResponse_setCap_client_word mysqlEnv
    (newConn srv7 (client (rootResponse 512 ++ [9, 9]) [])) 512 zeros28 (ascii "root") [] [9, 9] []
    (by decide) (by decide) (by decide) (by decide) rfl

/-- C3 fails as stated: the identity offers capability word 512 (protocol-41
only), the client answers with word 520 (protocol-41 and connect-with-db), and
`SetCap` receives 520, which is not the intersection 512. -/
theorem setCap_not_intersection :
    srv7.cap = 512
    ∧ setCapArgs (readHandshakeResponse mysqlEnv (newConn srv7 (client
        (encodeResponse mysqlEnv 520 zeros28 (ascii "root") [] (ascii "shop")) []))).conn.trace
      = [520]
    ∧ [520] ≠ [srv7.cap &&& 520] := by
  decide

/-- C4 fails on the code: a response whose user name lacks its NUL terminator
makes `readHandshakeResponse` panic (no error is returned to the caller), and a
response that announces five auth bytes and carries one is read past its end,
`CheckAuth` being called with bytes that lie outside the packet. -/
theorem readHandshakeResponse_truncated_no_error :
    (readHandshakeResponse mysqlEnv (newConn srv7 (client unterminatedUser []))).panicked = true
    ∧ (readHandshakeResponse mysqlEnv (newConn srv7 (client unterminatedUser []))).value = none
    ∧ (readHandshakeResponse mysqlEnv (newConn srv7 (client shortAuth []))).panicked = true
    ∧ checkAuthCalls
        (readHandshakeResponse mysqlEnv (newConn srv7 (client shortAuth [7, 7, 7, 7]))).conn.trace
      = [(ascii "root", [1, 7, 7, 7, 7], [])]
    ∧ (readHandshakeResponse mysqlEnv (newConn srv7 (client shortAuth [7, 7, 7, 7]))).value
      = some none := by
  decide

/-- C5: for a well-formed response whose capability word has the
connect-with-database bit and in which nothing follows the auth field,
`readHandshakeResponse` returns the traced access-denied error, whose cause is
the `SqlError` built for `ER_ACCESS_DENIED_ERROR` from the remote address, the
user and "Yes", and it does not call `CheckAuth`. -/
theorem readHandshakeResponse_missing_db_denied (env : Env) (conn : Conn) (c : Nat)
    (skip u a spare : Bytes) (hc : c < 4294967296) (hskip : skip.length = 28) (hu : 0 ∉ u)
    (ha : a.length < 256) (hb : c &&& env.clientConnectWithDB ≠ 0)
    (hr : conn.netConn.readResult
      = .inr ⟨le32 c ++ skip ++ u ++ [0] ++ [byte a.length] ++ a, spare⟩) :
    readHandshakeResponse env conn =
      .ok (some (Trace (.sql (NewSqlError env env.ER_ACCESS_DENIED_ERROR
          [.str conn.netConn.remoteAddr, .str u, .str yes]))))
        { conn with
          srv := { conn.srv with cap := c }
          trace := conn.trace ++ [.readPacket, .SetCap c] }
    ∧ (Trace (.sql (NewSqlError env env.ER_ACCESS_DENIED_ERROR
          [.str conn.netConn.remoteAddr, .str u, .str yes]))).Cause
        = .sql (NewSqlError env env.ER_ACCESS_DENIED_ERROR
          [.str conn.netConn.remoteAddr, .str u, .str yes])
    ∧ (NewSqlError env env.ER_ACCESS_DENIED_ERROR
          [.str conn.netConn.remoteAddr, .str u, .str yes]).Number = env.ER_ACCESS_DENIED_ERROR
    ∧ checkAuthCalls (readHandshakeResponse env conn).conn.trace = checkAuthCalls conn.trace := by
  have h := readHandshakeResponse_parsed env conn c skip u a [] spare hc hskip hu ha
    (by rw [hr]; simp)
  simp only [hb, if_false, List.length_nil, if_true] at h
  refine ⟨h, rfl, rfl, ?_⟩
  rw [h]
  simp [Res.conn, checkAuthCalls_append, checkAuthCalls]

/-- The response of user root under capability word 520 without a database is
denied without a call of `CheckAuth`. -/
theorem readHandshakeResponse_missing_db_denied_witness :
    (520 &&& mysqlEnv.clientConnectWithDB ≠ 0)
    ∧ checkAuthCalls (readHandshakeResponse mysqlEnv
        (newConn srv7 (client (rootResponse 520) []))).conn.trace = [] :=
  ⟨by decide,
    (readHandshakeResponse_missing_db_denied mysqlEnv (newConn srv7 (client (rootResponse 520) []))
      520 zeros28 (ascii "root") [] [] (by decide) (by decide) (by decide) (by decide)
      (by decide) rfl).2.2.2⟩


/-! ## Packets sent to the client -/

/-- C6 fails on the code: the client answers with the connect-with-database bit
set and no database.  `Handshake` returns the access-denied error (code 1045)
to its caller, but the ERR packet it writes carries code 1105 and state HY000,
those of the unknown-error wrapper, because `WriteError` receives the error
wrapped by `errors.Trace` and its type assertion to `*SqlError` fails. -/
theorem Handshake_missing_db_sends_unknown_error :
    (Handshake mysqlEnv srv7 (client (rootResponse 520) [])).value
      = some (false, some (Trace (Trace (.sql (NewSqlError mysqlEnv
          mysqlEnv.ER_ACCESS_DENIED_ERROR
          [.str (ascii "10.0.0.9:4000"), .str (ascii "root"), .str yes])))))
    ∧ mysqlEnv.ER_ACCESS_DENIED_ERROR = 1045
    ∧ ((packetsWritten (Handshake mysqlEnv srv7 (client (rootResponse 520) [])).conn.trace).drop 1).map
        (List.take 9) = [[0xFF] ++ le16 1105 ++ [0x23] ++ ascii "HY000"]
    ∧ le16 1105 ≠ le16 mysqlEnv.ER_ACCESS_DENIED_ERROR
    ∧ mysqlEnv.MySQLState mysqlEnv.ER_ACCESS_DENIED_ERROR = some (ascii "28000") := by
  decide

/-- The packet `WriteOK` writes for a result: the buffer it was handed, then the
OK layout of the counters the result answers, its status and its warnings. -/
theorem WriteOK_run (env : Env) (conn : Conn) (r : MySQLResult) :
    WriteOK env (some r) conn = .ok (conn.netConn.writeResult conn.writes)
      { conn with
        writes := conn.writes + 1
        trace := conn.trace ++ [.writePacket (conn.netConn.takeSmallBuffer 32 ++
          okLayout env conn.srv.cap (uint64 (RowsAffected r.mysqlResult).1)
            (uint64 (LastInsertId r.mysqlResult).1) r.Status r.Warnings)] } := by
  simp only [WriteOK, bind, Go.bind, pure, Go.pure, takeSmallBuffer, Cap, writePacket]
  by_cases hb : conn.srv.cap &&& env.clientProtocol41 = 0
  · simp [hb, okLayout, OK]
  · have hb2 : conn.srv.cap &&& env.clientProtocol41 > 0 := Nat.pos_of_ne_zero hb
    simp [hb, hb2, okLayout, OK, le16, byte, Nat.shiftRight_eq_div_pow]

/-- C7: for every result `r`, the bytes `WriteOK` appends to its buffer are the
OK marker 0x00, the length-encoded affected-rows and the length-encoded
last-insert-id (the counters of the embedded result); nothing follows when the
capability flags lack the protocol-41 bit, and with the bit the packet for the
same `r` is exactly 4 bytes longer, the extra bytes being `r.Status` and then
`r.Warnings`, two little-endian bytes each. -/
theorem WriteOK_layout (env : Env) (conn : Conn) (r : MySQLResult) :
    (conn.srv.cap &&& env.clientProtocol41 = 0 →
      WriteOK env (some r) conn = .ok (conn.netConn.writeResult conn.writes)
        { conn with
          writes := conn.writes + 1
          trace := conn.trace ++ [.writePacket (conn.netConn.takeSmallBuffer 32 ++
            ([0x00] ++ env.PutLengthEncodedInt (uint64 (RowsAffected r.mysqlResult).1)
              ++ env.PutLengthEncodedInt (uint64 (LastInsertId r.mysqlResult).1)))] })
    ∧ (conn.srv.cap &&& env.clientProtocol41 ≠ 0 →
      WriteOK env (some r) conn = .ok (conn.netConn.writeResult conn.writes)
        { conn with
          writes := conn.writes + 1
          trace := conn.trace ++ [.writePacket (conn.netConn.takeSmallBuffer 32 ++
            ([0x00] ++ env.PutLengthEncodedInt (uint64 (RowsAffected r.mysqlResult).1)
              ++ env.PutLengthEncodedInt (uint64 (LastInsertId r.mysqlResult).1)
              ++ [r.Status % 256, r.Status / 256 % 256]
              ++ [r.Warnings % 256, r.Warnings / 256 % 256]))] })
    ∧ ([0x00] ++ env.PutLengthEncodedInt (uint64 (RowsAffected r.mysqlResult).1)
          ++ env.PutLengthEncodedInt (uint64 (LastInsertId r.mysqlResult).1)
          ++ [r.Status % 256, r.Status / 256 % 256]
          ++ [r.Warnings % 256, r.Warnings / 256 % 256]).length
        = ([0x00] ++ env.PutLengthEncodedInt (uint64 (RowsAffected r.mysqlResult).1)
          ++ env.PutLengthEncodedInt (uint64 (LastInsertId r.mysqlResult).1)).length + 4
    ∧ (∀ res, r.mysqlResult = some res →
        (RowsAffected r.mysqlResult).1 = res.affectedRows
          ∧ (LastInsertId r.mysqlResult).1 = res.insertId) := by
  have hrun := WriteOK_run env conn r
  refine ⟨fun hb => ?_, fun hb => ?_, ?_, fun res h => ?_⟩
  · rw [hrun]; simp [hb, okLayout]
  · rw [hrun]; simp [hb, okLayout, le16]
  · simp only [List.length_append, List.length_cons, List.length_nil]
  · rw [h]; exact ⟨rfl, rfl⟩

/-- OK packets on a protocol-41 connection: for 3 affected rows, insert id 300,
status 2 and one warning, and for a result without an embedded record. -/
theorem WriteOK_layout_witness :
    packetsWritten (WriteOK mysqlEnv (some ⟨some ⟨3, 300⟩, 2, 1⟩)
        (newConn srv7 (client [] []))).conn.trace
      = [[0x00, 3, 0xfc, 44, 1, 2, 0, 1, 0]]
    ∧ packetsWritten (WriteOK mysqlEnv (some ⟨none, 2, 1⟩)
        (newConn { srv7 with cap := 0 } (client [] []))).conn.trace
      = [[0x00, 0, 0]] := by
  have h := (WriteOK_layout mysqlEnv (newConn srv7 (client [] [])) ⟨some ⟨3, 300⟩, 2, 1⟩).2.1
    (by decide)
  have h0 := (WriteOK_layout mysqlEnv (newConn { srv7 with cap := 0 } (client [] []))
    ⟨none, 2, 1⟩).1 (by decide)
  rw [h, h0]
  decide

/-- The packet `WriteOK` writes when called without a result. -/
theorem WriteOK_none_run (env : Env) (conn : Conn) :
    WriteOK env none conn = .ok (conn.netConn.writeResult conn.writes)
      { conn with
        writes := conn.writes + 1
        trace := conn.trace ++ [.writePacket (conn.netConn.takeSmallBuffer 32 ++
          okLayout env conn.srv.cap 0 0 conn.srv.Status 0)] } := by
  simp only [WriteOK, bind, Go.bind, pure, Go.pure, Status, takeSmallBuffer, Cap, writePacket]
  by_cases hb : conn.srv.cap &&& env.clientProtocol41 = 0
  · simp [hb, okLayout, OK, RowsAffected, LastInsertId, uint64]
  · have hb2 : conn.srv.cap &&& env.clientProtocol41 > 0 := Nat.pos_of_ne_zero hb
    simp [hb, hb2, okLayout, OK, RowsAffected, LastInsertId, uint64, le16, byte,
      Nat.shiftRight_eq_div_pow]

/-- C8: called with no result, `WriteOK` synthesizes one from the identity: for
every identity and connection it hands to `writePacket` the packet whose
appended bytes are the OK marker, the length-encoded integers of affected-rows
0 and last-insert-id 0 and, under protocol-41, the identity's `Status()` and
the warning count 0, two little-endian bytes each; and it returns what
`writePacket` returned. -/
theorem WriteOK_nil_synthesized (env : Env) (conn : Conn) :
    WriteOK env none conn = .ok (conn.netConn.writeResult conn.writes)
      { conn with
        writes := conn.writes + 1
        trace := conn.trace ++ [.writePacket (conn.netConn.takeSmallBuffer 32 ++
          ([0x00] ++ env.PutLengthEncodedInt 0 ++ env.PutLengthEncodedInt 0
            ++ (if conn.srv.cap &&& env.clientProtocol41 = 0 then []
                else [conn.srv.Status % 256, conn.srv.Status / 256 % 256, 0, 0])))] } := by
  rw [WriteOK_none_run]
  by_cases hb : conn.srv.cap &&& env.clientProtocol41 = 0 <;> simp [hb, okLayout, le16]

/-- The packet `WriteError` writes, in terms of the error its type assertion
selects. -/
theorem WriteError_run (env : Env) (conn : Conn) (e : GoError) :
    WriteError env e conn = .ok (conn.netConn.writeResult conn.writes)
      { conn with
        writes := conn.writes + 1
        trace := conn.trace ++ [.writePacket
          (conn.netConn.takeSmallBuffer (16 + (asSqlError env e).Message.length)
            ++ errLayout env conn.srv.cap (asSqlError env e))] } := by
  simp only [WriteError, bind, Go.bind, takeSmallBuffer, Cap, writePacket]
  by_cases hb : conn.srv.cap &&& env.clientProtocol41 = 0
  · simp [hb, errLayout, ERR, le16, byte, Nat.shiftRight_eq_div_pow]
  · have hb2 : conn.srv.cap &&& env.clientProtocol41 > 0 := Nat.pos_of_ne_zero hb
    simp [hb, hb2, errLayout, ERR, le16, byte, Nat.shiftRight_eq_div_pow]

/-- C9: for a `SqlError` `m`, the bytes `WriteError` appends to its buffer are
the ERR marker 0xFF, `m.Number` as two little-endian bytes, then, only with the
protocol-41 bit, the byte 0x23 and the bytes of `m.State`, then the bytes of
`m.Message` with no length prefix; with a 5-character state the message starts
9 bytes after the marker position on a protocol-41 connection, and 3 bytes
after it on a connection without the bit, where neither 0x23 nor the state is
emitted. -/
theorem WriteError_layout (env : Env) (conn : Conn) (m : SqlError) :
    WriteError env (.sql m) conn = .ok (conn.netConn.writeResult conn.writes)
      { conn with
        writes := conn.writes + 1
        trace := conn.trace ++ [.writePacket
          (conn.netConn.takeSmallBuffer (16 + m.Message.length) ++
            ([0xFF] ++ [m.Number % 256, m.Number / 256 % 256]
              ++ (if conn.srv.cap &&& env.clientProtocol41 = 0 then [] else [0x23] ++ m.State)
              ++ m.Message))] }
    ∧ (conn.srv.cap &&& env.clientProtocol41 ≠ 0 → m.State.length = 5 →
        (errLayout env conn.srv.cap m).take 9
            = [0xFF, m.Number % 256, m.Number / 256 % 256, 0x23] ++ m.State
          ∧ (errLayout env conn.srv.cap m).drop 9 = m.Message)
    ∧ (conn.srv.cap &&& env.clientProtocol41 = 0 →
        (errLayout env conn.srv.cap m).take 3 = [0xFF, m.Number % 256, m.Number / 256 % 256]
          ∧ (errLayout env conn.srv.cap m).drop 3 = m.Message) := by
  refine ⟨?_, fun hb hs => ?_, fun hb => ?_⟩
  · rw [WriteError_run]; simp [asSqlError, errLayout, le16]
  · have e : errLayout env conn.srv.cap m
        = ([0xFF, m.Number % 256, m.Number / 256 % 256, 0x23] ++ m.State) ++ m.Message := by
      simp [errLayout, hb, le16]
    rw [e]
    exact ⟨List.take_left' (by simp [hs]), List.drop_left' (by simp [hs])⟩
  · simp [errLayout, hb, le16]

/-- ERR layout of error 1045 with state 28000: the message starts at offset 9
with the protocol-41 bit and at offset 3 without it. -/
theorem WriteError_layout_witness :
    (errLayout mysqlEnv 512 ⟨1045, ascii "no", ascii "28000"⟩).drop 9 = ascii "no"
    ∧ (errLayout mysqlEnv 0 ⟨1045, ascii "no", ascii "28000"⟩).drop 3 = ascii "no" :=
  have h := WriteError_layout mysqlEnv (newConn srv7 (client [] []))
    ⟨1045, ascii "no", ascii "28000"⟩
  have h0 := WriteError_layout mysqlEnv (newConn { srv7 with cap := 0 } (client [] []))
    ⟨1045, ascii "no", ascii "28000"⟩
  ⟨(h.2.1 (by decide) (by decide)).2, (h0.2.2 (by decide)).2⟩

/-- C10, as the code has it: for an error `e` that is not a `*SqlError`,
`WriteError` encodes `NewSqlError(ER_UNKNOWN_ERROR, e.Error())`: the packet's
error number is `ER_UNKNOWN_ERROR` and its message is the message `NewSqlError`
built; the state `NewSqlError` assigns (the entry of that code in the state
table or else the default state) is in the packet when the capability flags
have the protocol-41 bit, and no state is in it when they lack the bit. -/
theorem WriteError_wraps_unknown (env : Env) (conn : Conn) (e : GoError)
    (h : ∀ m, e ≠ .sql m) :
    WriteError env e conn
      = WriteError env (.sql (NewSqlError env env.ER_UNKNOWN_ERROR [.str (e.Error env)])) conn
    ∧ WriteError env e conn = .ok (conn.netConn.writeResult conn.writes)
      { conn with
        writes := conn.writes + 1
        trace := conn.trace ++ [.writePacket
          (conn.netConn.takeSmallBuffer
              (16 + (NewSqlError env env.ER_UNKNOWN_ERROR [.str (e.Error env)]).Message.length) ++
            ([0xFF] ++ le16 env.ER_UNKNOWN_ERROR
              ++ (if conn.srv.cap &&& env.clientProtocol41 = 0 then []
                  else [0x23] ++ (match env.MySQLState env.ER_UNKNOWN_ERROR with
                    | some s => s
                    | none => env.DEFAULT_MYSQL_STATE))
              ++ (NewSqlError env env.ER_UNKNOWN_ERROR [.str (e.Error env)]).Message))] }
    ∧ (env.ER_UNKNOWN_ERROR < 65536 →
        decode16 (le16 env.ER_UNKNOWN_ERROR) = some env.ER_UNKNOWN_ERROR) := by
  have ha : asSqlError env e = NewSqlError env env.ER_UNKNOWN_ERROR [.str (e.Error env)] := by
    cases e with
    | sql m => exact absurd rfl (h m)
    | traced p => rfl
    | other msg => rfl
  refine ⟨?_, ?_, fun hn => ?_⟩
  · rw [WriteError_run, WriteError_run, ha]; rfl
  · rw [WriteError_run, ha]; simp [errLayout, NewSqlError]
  · simp only [le16, decode16, Option.some.injEq]; omega

/-- An error of another type with text EOF is sent as error 1105, with state
HY000 under capability word 512 and without a state under capability word 0. -/
theorem WriteError_wraps_unknown_witness :
    (packetsWritten (WriteError mysqlEnv (.other (ascii "EOF"))
        (newConn srv7 (client [] []))).conn.trace).map (List.take 9)
      = [[0xFF] ++ le16 1105 ++ [0x23] ++ ascii "HY000"]
    ∧ (packetsWritten (WriteError mysqlEnv (.other (ascii "EOF"))
        (newConn { srv7 with cap := 0 } (client [] []))).conn.trace).map (List.take 9)
      = [[0xFF] ++ le16 1105 ++ ascii "Unknow"] := by
  have h := (WriteError_wraps_unknown mysqlEnv (newConn srv7 (client [] [])) (.other (ascii "EOF"))
    (fun m hm => by cases hm)).2.1
  have h0 := (WriteError_wraps_unknown mysqlEnv (newConn { srv7 with cap := 0 } (client [] []))
    (.other (ascii "EOF")) (fun m hm => by cases hm)).2.1
  rw [h, h0]
  decide

/-- C10 fails as stated: on a connection whose capability flags lack the
protocol-41 bit, the ERR packet written for an error that is not a `*SqlError`
consists of the marker, the number 1105 and the message; the state HY000 that
`NewSqlError` assigns is not in it. -/
theorem WriteError_unknown_without_state :
    (newConn { srv7 with cap := 0 } (client [] [])).srv.cap &&& mysqlEnv.clientProtocol41 = 0
    ∧ (NewSqlError mysqlEnv mysqlEnv.ER_UNKNOWN_ERROR [.str (ascii "EOF")]).State = ascii "HY000"
    ∧ (NewSqlError mysqlEnv mysqlEnv.ER_UNKNOWN_ERROR [.str (ascii "EOF")]).Message
      = ascii "Unknown error%!(EXTRA string=EOF)"
    ∧ packetsWritten (WriteError mysqlEnv (.other (ascii "EOF"))
        (newConn { srv7 with cap := 0 } (client [] []))).conn.trace
      = [[0xFF] ++ le16 1105 ++ ascii "Unknown error%!(EXTRA string=EOF)"] := by
  decide

/-! ## Shapes of the two packet exchanges -/

/-- Every run of `writeInitPacket` either panics on the salt before any call, or
hands one packet to `writePacket` and returns what that call returned. -/
theorem writeInitPacket_shape (c : Conn) :
    writeInitPacket c = .panic c ∨
    ∃ data, writeInitPacket c = .ok (c.netConn.writeResult c.writes)
      { c with writes := c.writes + 1, trace := c.trace ++ [.writePacket data] } := by
  simp only [writeInitPacket, bind, Go.bind, ServerName, ConnID, Salt, Cap, Collation, Status,
    writePacket, pure, Go.pure]
  cases h1 : c.srv.Salt.slice 0 8 with
  | none => left; simp [check]
  | some s1 =>
    simp only [check]
    cases h2 : c.srv.Salt.sliceFrom 8 with
    | none => left; rfl
    | some s2 =>
      right
      dsimp only
      cases hw : c.netConn.writeResult c.writes <;> exact ⟨_, rfl⟩

/-! ## Stepping through the handshake -/

theorem bind_check_some {α β : Type} (a : α) (f : α → Go β) (c : Conn) :
    Go.bind (check (some a)) f c = f a c := rfl

theorem bind_check_none {α β : Type} (f : α → Go β) (c : Conn) :
    Go.bind (check (none : Option α)) f c = .panic c := rfl

theorem bind_readPacket {β : Type} (f : GoError ⊕ Slice → Go β) (c : Conn) :
    Go.bind readPacket f c = f c.netConn.readResult { c with trace := c.trace ++ [.readPacket] } :=
  rfl

theorem bind_SetCap {β : Type} (v : Nat) (f : Unit → Go β) (c : Conn) :
    Go.bind (SetCap v) f c
      = f () { c with srv := { c.srv with cap := v }, trace := c.trace ++ [.SetCap v] } := rfl

theorem bind_Cap {β : Type} (f : Nat → Go β) (c : Conn) : Go.bind Cap f c = f c.srv.cap c := rfl

theorem bind_RemoteAddr {β : Type} (f : Bytes → Go β) (c : Conn) :
    Go.bind RemoteAddr f c = f c.netConn.remoteAddr c := rfl

theorem bind_CheckAuth {β : Type} (u a d : Bytes) (f : Option GoError → Go β) (c : Conn) :
    Go.bind (CheckAuth u a d) f c
      = f (c.srv.CheckAuth u a d) { c with trace := c.trace ++ [.CheckAuth u a d] } := rfl

/-- Every run of `readHandshakeResponse`, on any packet, has one of five forms:
the read fails and its error is returned; a panic before `SetCap`; a panic
after `SetCap`; the missing-database denial after `SetCap`; or one call of
`CheckAuth` after `SetCap`, whose answer is returned. -/
theorem readHandshakeResponse_shape (env : Env) (c : Conn) :
    (∃ err, c.netConn.readResult = .inl err ∧
      readHandshakeResponse env c = .ok (some err) { c with trace := c.trace ++ [.readPacket] })
    ∨ readHandshakeResponse env c = .panic { c with trace := c.trace ++ [.readPacket] }
    ∨ (∃ v, readHandshakeResponse env c = .panic
        { c with srv := { c.srv with cap := v }, trace := c.trace ++ [.readPacket, .SetCap v] })
    ∨ (∃ v u, readHandshakeResponse env c =
        .ok (some (Trace (.sql (NewSqlError env env.ER_ACCESS_DENIED_ERROR
            [.str c.netConn.remoteAddr, .str u, .str yes]))))
          { c with srv := { c.srv with cap := v }, trace := c.trace ++ [.readPacket, .SetCap v] })
    ∨ (∃ v u a d, readHandshakeResponse env c = .ok (c.srv.CheckAuth u a d)
        { c with
          srv := { c.srv with cap := v }
          trace := c.trace ++ [.readPacket, .SetCap v, .CheckAuth u a d] }) := by
  simp only [readHandshakeResponse, bind, bind_readPacket]
  cases hr : c.netConn.readResult with
  | inl err => left; exact ⟨err, rfl, rfl⟩
  | inr data =>
    right
    dsimp only
    cases h1 : data.sliceTo 4 with
    | none => left; rfl
    | some s1 =>
      simp only [bind_check_some]
      cases h2 : Uint32 s1 with
      | none => left; rfl
      | some v =>
        right
        simp only [bind_check_some, bind_SetCap, List.append_assoc, List.singleton_append]
        cases h3 : data.sliceFrom (0 + 4 + 4 + 1 + 23) with
        | none => left; exact ⟨v, rfl⟩
        | some s3 =>
          simp only [bind_check_some]
          cases h4 : data.slice (0 + 4 + 4 + 1 + 23) (0 + 4 + 4 + 1 + 23 + IndexByte s3.bytes 0) with
          | none => left; exact ⟨v, rfl⟩
          | some s4 =>
            simp only [bind_check_some]
            cases h5 : data.index (0 + 4 + 4 + 1 + 23 + (s4.bytes.length : Int) + 1) with
            | none => left; exact ⟨v, rfl⟩
            | some n =>
              simp only [bind_check_some]
              cases h6 : data.slice (0 + 4 + 4 + 1 + 23 + (s4.bytes.length : Int) + 1 + 1)
                  (0 + 4 + 4 + 1 + 23 + (s4.bytes.length : Int) + 1 + 1 + (n : Int)) with
              | none => left; exact ⟨v, rfl⟩
              | some s6 =>
                simp only [bind_check_some, bind_Cap]
                by_cases hb : v &&& env.clientConnectWithDB = 0
                · right; right
                  refine ⟨v, s4.bytes, s6.bytes, [], ?_⟩
                  simp only [hb, if_true, bind_CheckAuth]
                  cases c.srv.CheckAuth s4.bytes s6.bytes [] <;> simp [pure, Go.pure]
                · simp only [hb, if_false]
                  cases h7 : data.sliceFrom (0 + 4 + 4 + 1 + 23 + (s4.bytes.length : Int) + 1 + 1
                      + (n : Int)) with
                  | none => left; exact ⟨v, rfl⟩
                  | some s7 =>
                    simp only [bind_check_some]
                    by_cases hl : s7.len = 0
                    · right; left
                      refine ⟨v, s4.bytes, ?_⟩
                      simp only [hl, if_true, bind_RemoteAddr]
                      rfl
                    · simp only [hl, if_false, bind_check_some]
                      cases h8 : data.slice
                          (0 + 4 + 4 + 1 + 23 + (s4.bytes.length : Int) + 1 + 1 + (n : Int))
                          (0 + 4 + 4 + 1 + 23 + (s4.bytes.length : Int) + 1 + 1 + (n : Int)
                            + IndexByte s7.bytes 0) with
                      | none => left; exact ⟨v, rfl⟩
                      | some s8 =>
                        right; right
                        refine ⟨v, s4.bytes, s6.bytes, s8.bytes, ?_⟩
                        simp only [bind_check_some, bind_CheckAuth]
                        cases c.srv.CheckAuth s4.bytes s6.bytes s8.bytes <;> simp [pure, Go.pure]

/-! ## The steps of Handshake -/

/-- The last steps of `Handshake`: one OK packet for the synthesized result,
then the reset and the session when the write returned nil, the cleanup and the
traced error when it returned an error. -/
theorem acceptSteps_run (env : Env) (c : Conn) :
    acceptSteps env c =
      match c.netConn.writeResult c.writes with
      | none => .ok (true, none)
          { c with
            writes := c.writes + 1
            trace := c.trace ++ [.writePacket (c.netConn.takeSmallBuffer 32 ++
              okLayout env c.srv.cap 0 0 c.srv.Status 0), .ResetSequence] }
      | some err => .ok (false, some (Trace err))
          { c with
            writes := c.writes + 1
            trace := c.trace ++ [.writePacket (c.netConn.takeSmallBuffer 32 ++
              okLayout env c.srv.cap 0 0 c.srv.Status 0), .cleanup] } := by
  simp only [acceptSteps, bind, Go.bind, WriteOK_none_run]
  cases c.netConn.writeResult c.writes <;>
    simp [ResetSequence, cleanup, emit, bind, Go.bind, pure, Go.pure]

theorem handshakeSteps_greeting_panic (env : Env) (c0 c1 : Conn)
    (h : writeInitPacket c0 = .panic c1) : handshakeSteps env c0 = .panic c1 := by
  simp only [handshakeSteps, bind, Go.bind, h]

theorem handshakeSteps_greeting_failed (env : Env) (c0 c1 : Conn) (err : GoError)
    (h : writeInitPacket c0 = .ok (some err) c1) :
    handshakeSteps env c0
      = .ok (false, some (Trace err)) { c1 with trace := c1.trace ++ [.cleanup] } := by
  simp only [handshakeSteps, bind, Go.bind, h]
  rfl

theorem handshakeSteps_response_panic (env : Env) (c0 c1 c2 : Conn)
    (h1 : writeInitPacket c0 = .ok none c1) (h2 : readHandshakeResponse env c1 = .panic c2) :
    handshakeSteps env c0 = .panic c2 := by
  simp only [handshakeSteps, bind, Go.bind, h1, h2]

theorem handshakeSteps_response_error (env : Env) (c0 c1 c2 : Conn) (err : GoError)
    (h1 : writeInitPacket c0 = .ok none c1)
    (h2 : readHandshakeResponse env c1 = .ok (some err) c2) :
    handshakeSteps env c0 = .ok (false, some (Trace err))
      { c2 with
        writes := c2.writes + 1
        trace := c2.trace ++ [.writePacket
          (c2.netConn.takeSmallBuffer (16 + (asSqlError env err).Message.length)
            ++ errLayout env c2.srv.cap (asSqlError env err)), .cleanup] } := by
  simp only [handshakeSteps, bind, Go.bind, h1, h2, WriteError_run]
  simp [cleanup, emit, pure, Go.pure]

theorem handshakeSteps_accept (env : Env) (c0 c1 c2 : Conn)
    (h1 : writeInitPacket c0 = .ok none c1) (h2 : readHandshakeResponse env c1 = .ok none c2) :
    handshakeSteps env c0 = acceptSteps env c2 := by
  simp only [handshakeSteps, acceptSteps, bind, Go.bind, h1, h2]

theorem resetCount_append (l1 l2 : List Event) :
    resetCount (l1 ++ l2) = resetCount l1 + resetCount l2 := by
  induction l1 with
  | nil => simp [resetCount]
  | cons e es ih => cases e <;> simp [resetCount, ih]; omega

theorem packetsWritten_append (l1 l2 : List Event) :
    packetsWritten (l1 ++ l2) = packetsWritten l1 ++ packetsWritten l2 := by
  induction l1 with
  | nil => rfl
  | cons e es ih => cases e <;> simp [packetsWritten, ih]

/-- What a run of `readHandshakeResponse` that returns nil has done: one call of
`CheckAuth`, which returned nil, and no write, reset or cleanup. -/
theorem readHandshakeResponse_nil (env : Env) (c c2 : Conn)
    (h : readHandshakeResponse env c = .ok none c2) :
    ∃ v u a d, c2 = { c with
        srv := { c.srv with cap := v }
        trace := c.trace ++ [.readPacket, .SetCap v, .CheckAuth u a d] }
      ∧ c.srv.CheckAuth u a d = none := by
  rcases readHandshakeResponse_shape env c with ⟨err, -, h'⟩ | h' | ⟨v, h'⟩ | ⟨v, u, h'⟩ |
    ⟨v, u, a, d, h'⟩
  · rw [h'] at h; cases h
  · rw [h'] at h; cases h
  · rw [h'] at h; cases h
  · rw [h'] at h; cases h
  · rw [h'] at h
    injection h with hv hc
    exact ⟨v, u, a, d, hc.symm, hv⟩

/-- What a run of `readHandshakeResponse` that returns an error has done: no
write, no reset, no cleanup, and at most one call of `CheckAuth`. -/
theorem readHandshakeResponse_error (env : Env) (c c2 : Conn) (err : GoError)
    (h : readHandshakeResponse env c = .ok (some err) c2) :
    ∃ evs, c2.trace = c.trace ++ evs ∧ resetCount evs = 0 ∧ packetsWritten evs = []
      ∧ c2.netConn = c.netConn ∧ c2.writes = c.writes := by
  rcases readHandshakeResponse_shape env c with ⟨e, -, h'⟩ | h' | ⟨v, h'⟩ | ⟨v, u, h'⟩ |
    ⟨v, u, a, d, h'⟩
  · rw [h'] at h; injection h with _ hc; subst hc; exact ⟨_, rfl, rfl, rfl, rfl, rfl⟩
  · rw [h'] at h; cases h
  · rw [h'] at h; cases h
  · rw [h'] at h; injection h with _ hc; subst hc; exact ⟨_, rfl, rfl, rfl, rfl, rfl⟩
  · rw [h'] at h; injection h with _ hc; subst hc; exact ⟨_, rfl, rfl, rfl, rfl, rfl⟩

/-- Every run of `Handshake` has one of five forms: a panic before any call; the
greeting, whose write fails, and the cleanup; a panic while the response is
parsed, after the greeting and the read; an error of `readHandshakeResponse`,
answered by one ERR packet and the cleanup; or one call of `CheckAuth` that
returns nil, followed by one OK packet and then the reset or, when the write of
the OK packet fails, the cleanup. -/
theorem Handshake_outcomes (env : Env) (s : MySQLServer) (conn : NetConn) :
    Handshake env s conn = .panic (newConn s conn)
    ∨ ∃ g, writeInitPacket (newConn s conn)
          = .ok (conn.writeResult 0) ⟨s, conn, 1, [.writePacket g]⟩
      ∧ ((∃ err, conn.writeResult 0 = some err
          ∧ Handshake env s conn
            = .ok (false, some (Trace err)) ⟨s, conn, 1, [.writePacket g, .cleanup]⟩)
        ∨ (∃ c, conn.writeResult 0 = none ∧ Handshake env s conn = .panic c
          ∧ (c.trace = [.writePacket g, .readPacket]
            ∨ ∃ v, c.trace = [.writePacket g, .readPacket, .SetCap v]))
        ∨ (∃ err c2 evs, conn.writeResult 0 = none
          ∧ readHandshakeResponse env ⟨s, conn, 1, [.writePacket g]⟩ = .ok (some err) c2
          ∧ c2.trace = [.writePacket g] ++ evs ∧ resetCount evs = 0 ∧ packetsWritten evs = []
          ∧ Handshake env s conn = .ok (false, some (Trace err))
            { c2 with
              writes := c2.writes + 1
              trace := c2.trace ++ [.writePacket
                (conn.takeSmallBuffer (16 + (asSqlError env err).Message.length)
                  ++ errLayout env c2.srv.cap (asSqlError env err)), .cleanup] })
        ∨ (∃ v u a d, conn.writeResult 0 = none ∧ s.CheckAuth u a d = none
          ∧ Handshake env s conn =
            match conn.writeResult 1 with
            | none => .ok (true, none) ⟨{ s with cap := v }, conn, 2,
                [.writePacket g, .readPacket, .SetCap v, .CheckAuth u a d,
                  .writePacket (conn.takeSmallBuffer 32 ++ okLayout env v 0 0 s.Status 0),
                  .ResetSequence]⟩
            | some err => .ok (false, some (Trace err)) ⟨{ s with cap := v }, conn, 2,
                [.writePacket g, .readPacket, .SetCap v, .CheckAuth u a d,
                  .writePacket (conn.takeSmallBuffer 32 ++ okLayout env v 0 0 s.Status 0),
                  .cleanup]⟩)) := by
  unfold Handshake
  rcases writeInitPacket_shape (newConn s conn) with hp | ⟨g, hw⟩
  · left
    exact handshakeSteps_greeting_panic env _ _ hp
  · right
    have hw0 : writeInitPacket (newConn s conn)
        = .ok (conn.writeResult 0) ⟨s, conn, 1, [.writePacket g]⟩ := hw
    refine ⟨g, hw0, ?_⟩
    cases hres : conn.writeResult 0 with
    | some err =>
      left
      rw [hres] at hw0
      exact ⟨err, rfl, handshakeSteps_greeting_failed env _ _ err hw0⟩
    | none =>
      right
      rw [hres] at hw0
      rcases readHandshakeResponse_shape env ⟨s, conn, 1, [.writePacket g]⟩
        with ⟨e, -, h'⟩ | h' | ⟨v, h'⟩ | ⟨v, u, h'⟩ | ⟨v, u, a, d, h'⟩
      · right; left
        exact ⟨e, _, [.readPacket], rfl, h', rfl, rfl, rfl,
          handshakeSteps_response_error env _ _ _ e hw0 h'⟩
      · left
        exact ⟨_, rfl, handshakeSteps_response_panic env _ _ _ hw0 h', Or.inl rfl⟩
      · left
        exact ⟨_, rfl, handshakeSteps_response_panic env _ _ _ hw0 h', Or.inr ⟨v, rfl⟩⟩
      · right; left
        exact ⟨_, _, [.readPacket, .SetCap v], rfl, h', rfl, rfl, rfl,
          handshakeSteps_response_error env _ _ _ _ hw0 h'⟩
      · cases hc : s.CheckAuth u a d with
        | none =>
          right; right
          have hc2 : (⟨s, conn, 1, [.writePacket g]⟩ : Conn).srv.CheckAuth u a d = none := hc
          rw [hc2] at h'
          have hp := handshakeSteps_accept env _ _ _ hw0 h'
          rw [acceptSteps_run] at hp
          refine ⟨v, u, a, d, rfl, hc, ?_⟩
          rw [hp]
          cases conn.writeResult 1 <;> rfl
        | some e =>
          right; left
          have hc2 : (⟨s, conn, 1, [.writePacket g]⟩ : Conn).srv.CheckAuth u a d = some e := hc
          rw [hc2] at h'
          exact ⟨e, _, [.readPacket, .SetCap v, .CheckAuth u a d], rfl, h', rfl, rfl, rfl,
            handshakeSteps_response_error env _ _ _ e hw0 h'⟩

/-! ## The error model -/

theorem toDigitsCore_ne_nil (b : Nat) :
    ∀ (fuel n : Nat) (ds : List Char), ds ≠ [] → Nat.toDigitsCore b fuel n ds ≠ [] := by
  intro fuel
  induction fuel with
  | zero => intro n ds h; simpa [Nat.toDigitsCore] using h
  | succ f ih =>
    intro n ds _
    simp only [Nat.toDigitsCore]
    split
    · simp
    · exact ih _ _ (by simp)

theorem toDigits_ne_nil (b n : Nat) : Nat.toDigits b n ≠ [] := by
  simp only [Nat.toDigits, Nat.toDigitsCore]
  split
  · simp
  · exact toDigitsCore_ne_nil b _ _ _ (by simp)

theorem formatInt_ne_nil (n : Int) : formatInt n ≠ [] := by
  cases n with
  | ofNat k => simpa [formatInt] using toDigits_ne_nil 10 k
  | negSucc k => simp [formatInt]

theorem operandText_eq_nil (v : GoValue) : operandText v = [] ↔ v = .str [] := by
  cases v with
  | str s => simp [operandText]
  | int n => simp [operandText, formatInt_ne_nil]

theorem goSprint_eq_nil (args : List GoValue) :
    goSprint args = [] ↔ ∀ v ∈ args, v = .str [] := by
  induction args with
  | nil => simp [goSprint]
  | cons v rest ih =>
    cases rest with
    | nil => simp [goSprint, operandText_eq_nil]
    | cons w rest2 =>
      cases v with
      | str s =>
        simp only [goSprint, operandText, List.append_eq_nil, ih, List.mem_cons, forall_eq_or_imp,
          GoValue.str.injEq]
      | int n =>
        cases w with
        | int k => simp [goSprint, formatInt_ne_nil]
        | str t => simp [goSprint, operandText, formatInt_ne_nil]

theorem goSprint_cons (v : GoValue) (vs : List GoValue) :
    goSprint (v :: vs) = operandText v ++ spacedAux (!v.isString) vs := by
  induction vs generalizing v with
  | nil => cases v <;> simp [goSprint, spacedAux]
  | cons w ws ih =>
    cases v with
    | str s =>
      cases w <;> simp [goSprint, spacedAux, GoValue.isString, ih]
    | int n =>
      cases w with
      | str t => simp [goSprint, spacedAux, GoValue.isString, ih, operandText]
      | int k => simp [goSprint, spacedAux, GoValue.isString, ih, operandText]

/-- Go `fmt.Sprint` puts a space between two operands when neither is a
string, and nothing between the others. -/
theorem goSprint_spaced (args : List GoValue) : goSprint args = spacedText args := by
  cases args with
  | nil => rfl
  | cons v vs =>
    rw [goSprint_cons]
    cases v <;> simp [spacedText, spacedAux, GoValue.isString]

/-- Literal text without a percent sign is copied to the output. -/
theorem goSprintfAux_literal (l rest : Bytes) (args : List GoValue) (h : 37 ∉ l) (fuel : Nat) :
    goSprintfAux (fuel + l.length) (l ++ rest) args = l ++ goSprintfAux fuel rest args := by
  induction l with
  | nil => rfl
  | cons x xs ih =>
    have hx : x ≠ 37 := fun e => h (by simp [e])
    have hxs : 37 ∉ xs := fun e => h (by simp [e])
    have e : fuel + (x :: xs).length = (fuel + xs.length) + 1 := rfl
    rw [e, List.cons_append, goSprintfAux.eq_4 _ _ _ _ (by simpa using hx), ih hxs]
    rfl

theorem goSprintfAux_s (rest s : Bytes) (vs : List GoValue) (fuel : Nat) :
    goSprintfAux (fuel + 1) (37 :: 115 :: rest) (.str s :: vs) = s ++ goSprintfAux fuel rest vs := by
  simp [goSprintfAux, takeMinus, takeNumber, directive, fmtString, pad]

theorem goSprintfAux_templateOf (lits : List Bytes) :
    ∀ (ss : List Bytes) (fuel : Nat), lits.length = ss.length + 1 → (∀ l ∈ lits, 37 ∉ l) →
      (templateOf lits).length + 1 ≤ fuel →
      goSprintfAux fuel (templateOf lits) (ss.map GoValue.str) = filledWith lits ss := by
  induction lits with
  | nil => intro ss fuel h; simp at h
  | cons l ls ih =>
    intro ss fuel hlen hl hf
    cases ls with
    | nil =>
      have hss : ss = [] := by simpa using hlen
      subst hss
      simp only [templateOf, filledWith, List.map_nil] at hf ⊢
      obtain ⟨k, rfl⟩ : ∃ k, fuel = (k + 1) + l.length := ⟨fuel - l.length - 1, by omega⟩
      have := goSprintfAux_literal l [] [] (hl l (by simp)) (k + 1)
      simp only [List.append_nil] at this
      rw [this]
      simp [goSprintfAux, extraNote]
    | cons l2 ls2 =>
      cases ss with
      | nil => simp at hlen
      | cons s ss2 =>
        simp only [templateOf, filledWith, List.map_cons, List.length_append, List.length_cons]
          at hf ⊢
        obtain ⟨k, rfl⟩ : ∃ k, fuel = (k + 1) + l.length := ⟨fuel - l.length - 1, by omega⟩
        rw [goSprintfAux_literal l _ _ (hl l (by simp)) (k + 1), goSprintfAux_s]
        rw [ih ss2 k (by simpa using hlen) (fun x hx => hl x (by simp [hx])) (by omega)]
        simp

/-- On a format of literal segments joined by `%s` and as many strings as there
are directives, `fmt.Sprintf` puts the strings in the places of the
directives. -/
theorem goSprintf_templateOf (lits ss : List Bytes) (hlen : lits.length = ss.length + 1)
    (hl : ∀ l ∈ lits, 37 ∉ l) :
    goSprintf (templateOf lits) (ss.map GoValue.str) = filledWith lits ss :=
  goSprintfAux_templateOf lits ss _ hlen hl (le_refl _)

/-- On a format without a percent sign `fmt.Sprintf` prints the format and
then the note for the operands, which it did not use. -/
theorem goSprintf_plain (format : Bytes) (args : List GoValue) (h : 37 ∉ format) :
    goSprintf format args = format ++ extraNote args := by
  have := goSprintfAux_literal format [] args h 1
  simp only [List.append_nil] at this
  rw [goSprintf, Nat.add_comm, this]
  rfl

theorem spacedAux_strings (args : List GoValue) (h : ∀ v ∈ args, v.isString = true) (p : Bool) :
    spacedAux p args = concatText args := by
  induction args generalizing p with
  | nil => rfl
  | cons v vs ih =>
    have hv : v.isString = true := h v (by simp)
    have := ih (fun w hw => h w (by simp [hw])) (!v.isString)
    simp only [concatText, hv, Bool.not_true] at this
    simp [spacedAux, concatText, hv, this]

/-- C11, as the code has it: for every code and argument list `NewSqlError`
returns an error whose `Number` is the code, whose `State` is the code's entry
in the SQL-state table when there is one and the default state otherwise, and
whose `Message` is `fmt.Sprintf` of the code's template and the arguments when
the code has a template and `fmt.Sprint` of the arguments otherwise.  With the
functions of `fmt`: a template without a percent sign is followed by the note
for the unused arguments; a template of literal segments joined by `%s` has
its string arguments in the places of the directives; and without a template
the message is the texts of the arguments with a space between two neighbours
when neither is a string, which is their concatenation when all are strings. -/
theorem NewSqlError_fields (env : Env) (errno : Nat) (args : List GoValue) :
    (NewSqlError env errno args).Number = errno
    ∧ (∀ st, env.MySQLState errno = some st → (NewSqlError env errno args).State = st)
    ∧ (env.MySQLState errno = none →
        (NewSqlError env errno args).State = env.DEFAULT_MYSQL_STATE)
    ∧ (∀ format, env.MySQLErrName errno = some format →
        (NewSqlError env errno args).Message = env.Sprintf format args)
    ∧ (env.MySQLErrName errno = none → (NewSqlError env errno args).Message = env.Sprint args)
    ∧ (env.Sprintf = goSprintf → ∀ format, env.MySQLErrName errno = some format →
        (37 ∉ format → (NewSqlError env errno args).Message = format ++ extraNote args)
        ∧ (∀ lits ss : List Bytes, format = templateOf lits → args = ss.map GoValue.str →
            lits.length = ss.length + 1 → (∀ l ∈ lits, 37 ∉ l) →
            (NewSqlError env errno args).Message = filledWith lits ss))
    ∧ (env.Sprint = goSprint → env.MySQLErrName errno = none →
        (NewSqlError env errno args).Message = spacedText args
        ∧ ((∀ v ∈ args, v.isString = true) →
            (NewSqlError env errno args).Message = concatText args)) := by
  refine ⟨rfl, ?_, ?_, ?_, ?_, ?_, ?_⟩
  · intro st h; simp [NewSqlError, h]
  · intro h; simp [NewSqlError, h]
  · intro format h; simp [NewSqlError, h]
  · intro h; simp [NewSqlError, h]
  · intro hF format h
    have e : (NewSqlError env errno args).Message = goSprintf format args := by
      simp [NewSqlError, h, hF]
    refine ⟨fun h37 => by rw [e, goSprintf_plain format args h37], ?_⟩
    intro lits ss hf ha hlen hl
    rw [e, hf, ha, goSprintf_templateOf lits ss hlen hl]
  · intro hS h
    have e : (NewSqlError env errno args).Message = spacedText args := by
      simp [NewSqlError, h, hS, goSprint_spaced]
    exact ⟨e, fun hall => by rw [e, spacedText, spacedAux_strings args hall]⟩

/-- Errors of the MySQL environment: code 1045 has state 28000 and its template
filled in with the three strings; code 1105, whose template has no directive,
has state HY000 and the note for its argument after the template; code 65535,
which has no entries, has the default state and the texts of its arguments,
spaced between the two integers; and a template of two `%s` directives has the
two strings in their places. -/
theorem NewSqlError_fields_witness :
    (NewSqlError mysqlEnv 1045 [.str (ascii "10.0.0.9:4000"), .str (ascii "root"), .str yes]).State
      = ascii "28000"
    ∧ (NewSqlError mysqlEnv 1045
        [.str (ascii "10.0.0.9:4000"), .str (ascii "root"), .str yes]).Message
      = ascii "Access denied for user " ++ 39 :: ascii "10.0.0.9:4000" ++ 39 :: 64 :: 39
          :: ascii "root" ++ 39 :: ascii " (using password: Yes)"
    ∧ (NewSqlError mysqlEnv 1105 [.str (ascii "EOF")]).Message
      = ascii "Unknown error%!(EXTRA string=EOF)"
    ∧ (NewSqlError mysqlEnv 65535 [.int 1, .str (ascii "a"), .int 2, .int 3]).State
      = ascii "HY000"
    ∧ (NewSqlError mysqlEnv 65535 [.int 1, .str (ascii "a"), .int 2, .int 3]).Message
      = ascii "1a2 3"
    ∧ (NewSqlError mysqlEnv 65535 [.str (ascii "a"), .str (ascii "b")]).Message = ascii "ab"
    ∧ (NewSqlError { mysqlEnv with
          MySQLErrName := fun _ => some (ascii "no %s in %s") } 7
        [.str (ascii "table"), .str (ascii "shop")]).Message = ascii "no table in shop" :=
  have h1 := NewSqlError_fields mysqlEnv 1045
    [.str (ascii "10.0.0.9:4000"), .str (ascii "root"), .str yes]
  have h2 := NewSqlError_fields mysqlEnv 1105 [.str (ascii "EOF")]
  have h3 := NewSqlError_fields mysqlEnv 65535 [.int 1, .str (ascii "a"), .int 2, .int 3]
  have h4 := NewSqlError_fields mysqlEnv 65535 [.str (ascii "a"), .str (ascii "b")]
  have h5 := NewSqlError_fields { mysqlEnv with
    MySQLErrName := fun _ => some (ascii "no %s in %s") } 7
    [.str (ascii "table"), .str (ascii "shop")]
  ⟨h1.2.1 (ascii "28000") (by decide),
    (h1.2.2.2.1 (ascii "Access denied for user " ++ 39 :: ascii "%-.48s" ++ 39 :: 64 :: 39
      :: ascii "%-.64s" ++ 39 :: ascii " (using password: %s)") (by decide)).trans (by decide),
    ((h2.2.2.2.2.2.1 rfl (ascii "Unknown error") (by decide)).1 (by decide)).trans (by decide),
    h3.2.2.1 (by decide),
    ((h3.2.2.2.2.2.2 rfl (by decide)).1).trans (by decide),
    ((h4.2.2.2.2.2.2 rfl (by decide)).2 (by decide)).trans (by decide),
    ((h5.2.2.2.2.2.1 rfl (ascii "no %s in %s") rfl).2 [ascii "no ", ascii " in ", []]
      [ascii "table", ascii "shop"] (by decide) rfl (by decide) (by decide)).trans (by decide)⟩

/-- C11 fails as stated: code 65535 has no template, and for the arguments 1
and 2 the message is the text 1 2, with a space that the textual concatenation
of the arguments, 12, does not have. -/
theorem NewSqlError_message_not_concatenation :
    mysqlEnv.MySQLErrName 65535 = none
    ∧ (NewSqlError mysqlEnv 65535 [.int 1, .int 2]).Message = ascii "1 2"
    ∧ concatText [.int 1, .int 2] = ascii "12"
    ∧ (NewSqlError mysqlEnv 65535 [.int 1, .int 2]).Message ≠ concatText [.int 1, .int 2] := by
  decide

/-- C12, as the code has it: for a code with no entry in either table the error
has the default state, non-empty when the default state is, and as message the
text `fmt.Sprint` gives the arguments; that message is non-empty exactly when
some argument is not the empty string. -/
theorem NewSqlError_unknown_code (env : Env) (errno : Nat) (args : List GoValue)
    (hs : env.MySQLState errno = none) (hn : env.MySQLErrName errno = none) :
    (NewSqlError env errno args).State = env.DEFAULT_MYSQL_STATE
    ∧ (env.DEFAULT_MYSQL_STATE ≠ [] → (NewSqlError env errno args).State ≠ [])
    ∧ (NewSqlError env errno args).Message = env.Sprint args
    ∧ (env.Sprint = goSprint →
        ((NewSqlError env errno args).Message ≠ [] ↔ ∃ v ∈ args, v ≠ .str [])) := by
  have e1 : (NewSqlError env errno args).State = env.DEFAULT_MYSQL_STATE := by
    simp [NewSqlError, hs]
  have e2 : (NewSqlError env errno args).Message = env.Sprint args := by
    simp [NewSqlError, hn]
  refine ⟨e1, fun h => by rw [e1]; exact h, e2, fun h => ?_⟩
  rw [e2, h, Ne, goSprint_eq_nil]
  push_neg
  rfl

/-- Code 65535 with one non-empty string argument: state HY000 and a non-empty
message. -/
theorem NewSqlError_unknown_code_witness :
    (NewSqlError mysqlEnv 65535 [.str (ascii "boom")]).State ≠ []
    ∧ (NewSqlError mysqlEnv 65535 [.str (ascii "boom")]).Message ≠ [] :=
  have h := NewSqlError_unknown_code mysqlEnv 65535 [.str (ascii "boom")] (by decide) (by decide)
  ⟨h.2.1 (by decide), (h.2.2.2 rfl).2 ⟨_, List.mem_singleton.2 rfl, by decide⟩⟩

/-- C12 fails as stated: code 65535 has no entry in the state table and none in
the template table, and with an empty argument list `NewSqlError` returns an
error whose message is empty. -/
theorem NewSqlError_empty_message :
    mysqlEnv.MySQLState 65535 = none ∧ mysqlEnv.MySQLErrName 65535 = none
    ∧ (NewSqlError mysqlEnv 65535 []).State = ascii "HY000"
    ∧ (NewSqlError mysqlEnv 65535 []).Message = [] := by
  decide

/-! ## The greeting and the salt -/

/-- The greeting written for an identity whose salt has at least 8 bytes. -/
theorem writeInitPacket_run_salt (c : Conn) (hs : 8 ≤ c.srv.Salt.len) (ht : c.srv.wellTyped) :
    writeInitPacket c = .ok (c.netConn.writeResult c.writes)
      { c with
        writes := c.writes + 1
        trace := c.trace ++ [.writePacket ([0, 0, 0, 0] ++ greetingLayout c.srv)] } := by
  obtain ⟨h1, h2, h3, h4⟩ := ht
  simp only [Slice.len] at hs
  have e1 : c.srv.Salt.slice 0 8
      = some ⟨c.srv.Salt.bytes.take 8, (c.srv.Salt.bytes ++ c.srv.Salt.spare).drop 8⟩ := by
    simp [Slice.slice, Slice.cap, List.take_append_of_le_length, hs]
    omega
  have e2 : c.srv.Salt.sliceFrom 8 = some ⟨c.srv.Salt.bytes.drop 8, c.srv.Salt.spare⟩ := by
    simp [Slice.sliceFrom, Slice.len, hs]
  simp only [writeInitPacket, bind, Go.bind, ServerName, ConnID, Salt, Cap, Collation, Status, e1,
    e2, check, writePacket, pure, Go.pure]
  cases hw : c.netConn.writeResult c.writes <;>
    simp [Go.pure, greetingLayout, le16, le32, byte, Nat.shiftRight_eq_div_pow,
      Nat.mod_eq_of_lt h2] <;> omega

/-- With a salt of fewer than 8 bytes `writeInitPacket` panics before any call. -/
theorem writeInitPacket_short_salt (c : Conn) (hs : c.srv.Salt.len < 8) :
    writeInitPacket c = .panic c := by
  have e2 : c.srv.Salt.sliceFrom 8 = none := by
    simp only [Slice.sliceFrom, Slice.len] at hs ⊢
    rw [if_neg (by omega)]
  simp only [writeInitPacket, bind, Go.bind, ServerName, ConnID, Salt, Cap, Collation, Status,
    writePacket, pure, Go.pure]
  cases h1 : c.srv.Salt.slice 0 8 with
  | none => rfl
  | some s1 =>
    simp only [check, e2]

/-- With a salt of at least 8 bytes `writeInitPacket` hands one packet to
`writePacket` and returns what that call returned. -/
theorem writeInitPacket_calls (c : Conn) (hs : 8 ≤ c.srv.Salt.len) :
    ∃ data, writeInitPacket c = .ok (c.netConn.writeResult c.writes)
      { c with writes := c.writes + 1, trace := c.trace ++ [.writePacket data] } := by
  rcases writeInitPacket_shape c with hp | h
  · exfalso
    simp only [writeInitPacket, bind, Go.bind, ServerName, ConnID, Salt, Cap, Collation, Status,
      writePacket, pure, Go.pure] at hp
    simp only [Slice.len] at hs
    have e1 : c.srv.Salt.slice 0 8 ≠ none := by
      simp only [Slice.slice, Slice.cap]
      rw [if_pos (by refine ⟨by omega, by omega, ?_⟩; push_cast; omega)]
      simp
    have e2 : c.srv.Salt.sliceFrom 8 ≠ none := by
      simp only [Slice.sliceFrom, Slice.len]
      rw [if_pos (by refine ⟨by omega, ?_⟩; omega)]
      simp
    cases h1 : c.srv.Salt.slice 0 8 with
    | none => exact e1 h1
    | some s1 =>
      cases h2 : c.srv.Salt.sliceFrom 8 with
      | none => exact e2 h2
      | some s2 =>
        simp only [h1, h2, check] at hp
        cases hw' : c.netConn.writeResult c.writes <;> simp [hw', Go.pure] at hp
  · exact h

/-- The state a returning `writeInitPacket` leaves: one packet written, nothing
else changed. -/
theorem writeInitPacket_ok_state (c0 c1 : Conn) (r : Option GoError)
    (h : writeInitPacket c0 = .ok r c1) :
    ∃ data, c1 = { c0 with writes := c0.writes + 1, trace := c0.trace ++ [.writePacket data] }
      ∧ r = c0.netConn.writeResult c0.writes := by
  rcases writeInitPacket_shape c0 with hp | ⟨data, hw⟩
  · rw [hp] at h; cases h
  · rw [hw] at h
    injection h with hr hc
    exact ⟨data, hc.symm, hr.symm⟩

/-- C18, as the code has it: `writeInitPacket` does not assert the salt length.
For every identity whose salt has at least 8 bytes, of length 20 or not, it
hands the greeting to `writePacket`, the first fragment holding the first 8
salt bytes and the second all the others, so that the two fragments hold every
salt byte once (20 bytes exactly when the salt has length 20); for a salt of
fewer than 8 bytes it panics and no packet is handed to `writePacket`. -/
theorem writeInitPacket_salt_fragments (c : Conn) (ht : c.srv.wellTyped) :
    (8 ≤ c.srv.Salt.len →
      writeInitPacket c = .ok (c.netConn.writeResult c.writes)
        { c with
          writes := c.writes + 1
          trace := c.trace ++ [.writePacket ([0, 0, 0, 0] ++ greetingLayout c.srv)] }
      ∧ ((greetingLayout c.srv).drop (c.srv.ServerName.length + 6)).take 8
          = c.srv.Salt.bytes.take 8
      ∧ ((greetingLayout c.srv).drop (c.srv.ServerName.length + 33)).take (c.srv.Salt.len - 8)
          = c.srv.Salt.bytes.drop 8
      ∧ (c.srv.Salt.bytes.take 8).length + (c.srv.Salt.bytes.drop 8).length = c.srv.Salt.len
      ∧ (greetingLayout c.srv).length = c.srv.ServerName.length + 26 + c.srv.Salt.len)
    ∧ (c.srv.Salt.len < 8 →
        writeInitPacket c = .panic c ∧ packetsWritten (writeInitPacket c).conn.trace
          = packetsWritten c.trace) := by
  refine ⟨fun hs => ?_, fun hs => ?_⟩
  · have hrun := writeInitPacket_run_salt c hs ht
    simp only [Slice.len] at hs ⊢
    have ht8 : (c.srv.Salt.bytes.take 8).length = 8 := by simp [hs]
    have hd8 : (c.srv.Salt.bytes.drop 8).length = c.srv.Salt.bytes.length - 8 := by simp
    have e1 : greetingLayout c.srv = (10 :: c.srv.ServerName ++ [0] ++ le32 c.srv.ConnID) ++
        (c.srv.Salt.bytes.take 8 ++ ([0] ++ le16 (c.srv.cap % 65536) ++ [c.srv.Collation]
          ++ le16 c.srv.Status ++ le16 (c.srv.cap / 65536) ++ [0] ++ List.replicate 10 0
          ++ c.srv.Salt.bytes.drop 8 ++ [0])) := by
      simp [greetingLayout]
    have e2 : greetingLayout c.srv = (10 :: c.srv.ServerName ++ [0] ++ le32 c.srv.ConnID
        ++ c.srv.Salt.bytes.take 8 ++ [0] ++ le16 (c.srv.cap % 65536) ++ [c.srv.Collation]
          ++ le16 c.srv.Status ++ le16 (c.srv.cap / 65536) ++ [0] ++ List.replicate 10 0) ++
        (c.srv.Salt.bytes.drop 8 ++ [0]) := by
      simp [greetingLayout]
    refine ⟨hrun, ?_, ?_, ?_, ?_⟩
    · rw [e1, List.drop_left' (by simp [le32]), List.take_left' ht8]
    · rw [e2, List.drop_left' (by simp [le32, le16, ht8]), List.take_left' hd8]
    · rw [ht8, hd8]; omega
    · simp [greetingLayout, le16, le32]
      omega
  · have hp := writeInitPacket_short_salt c hs
    exact ⟨hp, by rw [hp]; rfl⟩

/-- The greeting for a salt of 21 bytes carries all 21 of them; a salt of 3
bytes makes the call panic. -/
theorem writeInitPacket_salt_fragments_witness :
    (greetingLayout srv21).length = 5 + 26 + 21
    ∧ packetsWritten (writeInitPacket (newConn { srv7 with Salt := ⟨[1, 2, 3], []⟩ }
        (client [] []))).conn.trace = [] :=
  ⟨((writeInitPacket_salt_fragments (newConn srv21 (client [] []))
      ⟨by decide, by decide, by decide, by decide⟩).1 (by decide)).2.2.2.2,
    ((writeInitPacket_salt_fragments (newConn { srv7 with Salt := ⟨[1, 2, 3], []⟩ } (client [] []))
      ⟨by decide, by decide, by decide, by decide⟩).2 (by decide)).2⟩

/-- C18 fails as stated: for the identity whose salt has 21 bytes the greeting
is handed to `writePacket`, with all 21 salt bytes in it. -/
theorem writeInitPacket_salt_21_written :
    srv21.Salt.len = 21
    ∧ packetsWritten (writeInitPacket (newConn srv21 (client [] []))).conn.trace
      = [[0, 0, 0, 0] ++ greetingLayout srv21]
    ∧ ((greetingLayout srv21).drop 11).take 8 ++ ((greetingLayout srv21).drop 38).take 13
      = srv21.Salt.bytes := by
  decide

/-! ## Failures of the transport -/

/-- C16: when the write of the greeting fails, `Handshake` makes no other call
than that write and the cleanup (no ERR reply, no further write, no read, no
`CheckAuth`, no `ResetSequence`) and returns a nil session with the error. -/
theorem Handshake_greeting_write_failed (env : Env) (s : MySQLServer) (conn : NetConn)
    (err : GoError) (hs : 8 ≤ s.Salt.len) (hw : conn.writeResult 0 = some err) :
    ∃ data, Handshake env s conn = .ok (false, some (Trace err))
        { srv := s, netConn := conn, writes := 1, trace := [.writePacket data, .cleanup] }
      ∧ readCount [.writePacket data, .cleanup] = 0
      ∧ checkAuthCalls [.writePacket data, .cleanup] = []
      ∧ resetCount [.writePacket data, .cleanup] = 0
      ∧ packetsWritten [.writePacket data, .cleanup] = [data]
      ∧ cleanupCount [.writePacket data, .cleanup] = 1 := by
  obtain ⟨data, hrun⟩ := writeInitPacket_calls (newConn s conn) hs
  refine ⟨data, ?_, rfl, rfl, rfl, rfl, rfl⟩
  have hw' : (newConn s conn).netConn.writeResult (newConn s conn).writes = some err := hw
  rw [hw'] at hrun
  exact handshakeSteps_greeting_failed env _ _ err hrun

/-- The client to which no write succeeds: the handshake ends after the
greeting. -/
theorem Handshake_greeting_write_failed_witness :
    (Handshake mysqlEnv srv7 deafClient).value
      = some (false, some (Trace (.other (ascii "broken pipe"))))
    ∧ (Handshake mysqlEnv srv7 deafClient).conn.trace
      = [.writePacket ([0, 0, 0, 0] ++ greetingLayout srv7), .cleanup] := by
  obtain ⟨data, h, -⟩ := Handshake_greeting_write_failed mysqlEnv srv7 deafClient
    (.other (ascii "broken pipe")) (by decide) rfl
  constructor
  · rw [h]; rfl
  · decide

theorem readHandshakeResponse_read_failed (env : Env) (c : Conn) (err : GoError)
    (hr : c.netConn.readResult = .inl err) :
    readHandshakeResponse env c = .ok (some err) { c with trace := c.trace ++ [.readPacket] } := by
  simp only [readHandshakeResponse, bind, bind_readPacket, hr]
  rfl

/-- C15 fails on the code: `readPacket` returns the bad-connection error, and
the next call `Handshake` makes is a `writePacket` of an ERR packet, that of the
unknown-error wrapper (code 1105, state HY000), where the claim has nothing
further written.  On the two other transport failures it handles, the failed
write of the greeting and the failed write of the OK packet, `Handshake` goes
to the cleanup without an ERR packet. -/
theorem Handshake_read_failure_sends_err :
    deadClient.readResult = .inl (.other (ascii "driver: bad connection"))
    ∧ (Handshake mysqlEnv srv7 deadClient).conn.trace.take 3
      = [.writePacket ([0, 0, 0, 0] ++ greetingLayout srv7), .readPacket,
          .writePacket ([0xFF] ++ le16 1105 ++ [0x23] ++ ascii "HY000"
            ++ ascii "Unknown error%!(EXTRA string=driver: bad connection)")]
    ∧ (Handshake mysqlEnv srv7 deafClient).conn.trace
      = [.writePacket ([0, 0, 0, 0] ++ greetingLayout srv7), .cleanup]
    ∧ (Handshake mysqlEnv srv7 closingClient).conn.trace
      = [.writePacket ([0, 0, 0, 0] ++ greetingLayout srv7), .readPacket, .SetCap 512,
          .CheckAuth (ascii "root") [] [], .writePacket [0x00, 0, 0, 2, 0, 0, 0], .cleanup] := by
  decide

/-! ## Outcomes of the credential check -/

/-- C13: in a run of `Handshake` where the greeting is written, the response is
read and `CheckAuth` is called and returns nil, the one call of `writePacket`
that follows has the OK packet (marker 0x00, affected-rows 0, last-insert-id 0
and, when the capability word sent by the client has the protocol-41 bit, the
identity's status and no warnings), and no ERR packet is written; when that
write returns nil, `ResetSequence` is called once and the session is returned
with a nil error; when it returns an error, the cleanup follows, `ResetSequence`
is not called and a nil session is returned with the error. -/
theorem Handshake_checkAuth_accepted (env : Env) (s : MySQLServer) (conn : NetConn) (c1 : Conn)
    (v : Nat) (u a d : Bytes)
    (hg : writeInitPacket (newConn s conn) = .ok none c1)
    (ht : (readHandshakeResponse env c1).conn.trace
      = c1.trace ++ [.readPacket, .SetCap v, .CheckAuth u a d])
    (he : s.CheckAuth u a d = none) :
    (conn.writeResult 1 = none →
      Handshake env s conn = .ok (true, none)
        { srv := { s with cap := v }, netConn := conn, writes := 2,
          trace := c1.trace ++ [.readPacket, .SetCap v, .CheckAuth u a d,
            .writePacket (conn.takeSmallBuffer 32 ++
              ([0x00] ++ env.PutLengthEncodedInt 0 ++ env.PutLengthEncodedInt 0
                ++ (if v &&& env.clientProtocol41 = 0 then [] else le16 s.Status ++ le16 0))),
            .ResetSequence] })
    ∧ (∀ err, conn.writeResult 1 = some err →
      Handshake env s conn = .ok (false, some (Trace err))
        { srv := { s with cap := v }, netConn := conn, writes := 2,
          trace := c1.trace ++ [.readPacket, .SetCap v, .CheckAuth u a d,
            .writePacket (conn.takeSmallBuffer 32 ++
              ([0x00] ++ env.PutLengthEncodedInt 0 ++ env.PutLengthEncodedInt 0
                ++ (if v &&& env.clientProtocol41 = 0 then [] else le16 s.Status ++ le16 0))),
            .cleanup] })
    ∧ (packetsWritten c1.trace).length = 1
    ∧ resetCount c1.trace = 0
    ∧ cleanupCount c1.trace = 0 := by
  obtain ⟨data, rfl, -⟩ := writeInitPacket_ok_state _ _ _ hg
  have hfin : ∀ (r : Option GoError) (c2 : Conn),
      readHandshakeResponse env
        { newConn s conn with
          writes := (newConn s conn).writes + 1
          trace := (newConn s conn).trace ++ [.writePacket data] } = .ok r c2 →
      c2.trace = [.writePacket data] ++ [.readPacket, .SetCap v, .CheckAuth u a d] := by
    intro r c2 h; rw [h] at ht; exact ht
  rcases readHandshakeResponse_shape env
      { newConn s conn with
        writes := (newConn s conn).writes + 1
        trace := (newConn s conn).trace ++ [.writePacket data] }
    with ⟨e, -, h⟩ | h | ⟨w, h⟩ | ⟨w, u2, h⟩ | ⟨w, u2, a2, d2, h⟩
  · have := hfin _ _ h; simp [newConn] at this
  · rw [h] at ht; simp [Res.conn, newConn] at ht
  · rw [h] at ht; simp [Res.conn, newConn] at ht
  · have := hfin _ _ h; simp [newConn] at this
  · have hl := hfin _ _ h
    simp only [newConn, List.nil_append, List.cons_append, List.cons.injEq, true_and,
      Event.SetCap.injEq, Event.CheckAuth.injEq, and_true] at hl
    obtain ⟨rfl, rfl, rfl, rfl⟩ := hl
    have hc : (newConn s conn).srv.CheckAuth u2 a2 d2 = none := he
    simp only [] at h
    rw [show ({ newConn s conn with
        writes := (newConn s conn).writes + 1
        trace := (newConn s conn).trace ++ [.writePacket data] } : Conn).srv.CheckAuth u2 a2 d2
        = none from hc] at h
    have hrun := handshakeSteps_accept env _ _ _ hg h
    rw [acceptSteps_run] at hrun
    refine ⟨fun hw => ?_, fun err hw => ?_, rfl, rfl, rfl⟩
    · have hw2 : conn.writeResult (0 + 1) = none := hw
      simpa [Handshake, newConn, okLayout, hw2] using hrun
    · have hw2 : conn.writeResult (0 + 1) = some err := hw
      simpa [Handshake, newConn, okLayout, hw2] using hrun

/-- The response of user root under capability word 512 is accepted: one OK
packet follows the greeting, then the reset, and the session is returned; when
the write of the OK packet fails, the cleanup follows instead and the error is
returned. -/
theorem Handshake_checkAuth_accepted_witness :
    Handshake mysqlEnv srv7 (client (rootResponse 512) [])
      = .ok (true, none)
        ⟨{ srv7 with cap := 512 }, client (rootResponse 512) [], 2,
          [.writePacket ([0, 0, 0, 0] ++ greetingLayout srv7), .readPacket, .SetCap 512,
            .CheckAuth (ascii "root") [] [], .writePacket [0x00, 0, 0, 2, 0, 0, 0],
            .ResetSequence]⟩
    ∧ Handshake mysqlEnv srv7 closingClient
      = .ok (false, some (Trace (.other (ascii "broken pipe"))))
        ⟨{ srv7 with cap := 512 }, closingClient, 2,
          [.writePacket ([0, 0, 0, 0] ++ greetingLayout srv7), .readPacket, .SetCap 512,
            .CheckAuth (ascii "root") [] [], .writePacket [0x00, 0, 0, 2, 0, 0, 0],
            .cleanup]⟩ := by
  have h1 := (Handshake_checkAuth_accepted mysqlEnv srv7 (client (rootResponse 512) [])
    ⟨srv7, client (rootResponse 512) [], 1, [.writePacket ([0, 0, 0, 0] ++ greetingLayout srv7)]⟩
    512 (ascii "root") [] []
    (writeInitPacket_run (newConn srv7 (client (rootResponse 512) [])) (by decide)
      ⟨by decide, by decide, by decide, by decide⟩)
    (by decide) rfl).1 rfl
  have h2 := (Handshake_checkAuth_accepted mysqlEnv srv7 closingClient
    ⟨srv7, closingClient, 1, [.writePacket ([0, 0, 0, 0] ++ greetingLayout srv7)]⟩
    512 (ascii "root") [] []
    (writeInitPacket_run (newConn srv7 closingClient) (by decide)
      ⟨by decide, by decide, by decide, by decide⟩)
    (by decide) rfl).2.1 (.other (ascii "broken pipe")) rfl
  rw [h1, h2]
  exact ⟨rfl, rfl⟩

/-- C14, as the code has it: in a run of `Handshake` where the greeting is
written and `CheckAuth` is called and returns the `*SqlError` `e`, exactly one
ERR packet is handed to `writePacket`, carrying the number and the message of
`e`, and the state of `e` when the capability word sent by the client has the
protocol-41 bit; the handshake then performs cleanup and returns a nil session
with the error, whatever the ERR write returned. -/
theorem Handshake_checkAuth_denied (env : Env) (s : MySQLServer) (conn : NetConn) (c1 : Conn)
    (v : Nat) (u a d : Bytes) (e : SqlError)
    (hg : writeInitPacket (newConn s conn) = .ok none c1)
    (ht : (readHandshakeResponse env c1).conn.trace
      = c1.trace ++ [.readPacket, .SetCap v, .CheckAuth u a d])
    (he : s.CheckAuth u a d = some (.sql e)) :
    Handshake env s conn = .ok (false, some (Trace (.sql e)))
      { srv := { s with cap := v }, netConn := conn, writes := 2,
        trace := c1.trace ++ [.readPacket, .SetCap v, .CheckAuth u a d,
          .writePacket (conn.takeSmallBuffer (16 + e.Message.length) ++
            ([0xFF] ++ le16 e.Number
              ++ (if v &&& env.clientProtocol41 = 0 then [] else [0x23] ++ e.State)
              ++ e.Message)),
          .cleanup] }
    ∧ (packetsWritten c1.trace).length = 1 := by
  obtain ⟨data, rfl, -⟩ := writeInitPacket_ok_state _ _ _ hg
  have hfin : ∀ (r : Option GoError) (c2 : Conn),
      readHandshakeResponse env
        { newConn s conn with
          writes := (newConn s conn).writes + 1
          trace := (newConn s conn).trace ++ [.writePacket data] } = .ok r c2 →
      c2.trace = [.writePacket data] ++ [.readPacket, .SetCap v, .CheckAuth u a d] := by
    intro r c2 h; rw [h] at ht; exact ht
  rcases readHandshakeResponse_shape env
      { newConn s conn with
        writes := (newConn s conn).writes + 1
        trace := (newConn s conn).trace ++ [.writePacket data] }
    with ⟨e', -, h'⟩ | h' | ⟨v', h'⟩ | ⟨v', u', h'⟩ | ⟨v', u', a', d', h'⟩
  · have := hfin _ _ h'; simp [newConn] at this
  · rw [h'] at ht; simp [Res.conn, newConn] at ht
  · rw [h'] at ht; simp [Res.conn, newConn] at ht
  · have := hfin _ _ h'; simp [newConn] at this
  · have hl := hfin _ _ h'
    simp only [newConn, List.nil_append, List.cons_append, List.cons.injEq, true_and,
      Event.SetCap.injEq, Event.CheckAuth.injEq, and_true] at hl
    obtain ⟨rfl, rfl, rfl, rfl⟩ := hl
    have hc : (newConn s conn).srv.CheckAuth u' a' d' = some (.sql e) := he
    simp only [] at h'
    rw [show ({ newConn s conn with
        writes := (newConn s conn).writes + 1
        trace := (newConn s conn).trace ++ [.writePacket data] } : Conn).srv.CheckAuth u' a' d'
        = some (.sql e) from hc] at h'
    have h := handshakeSteps_response_error env _ _ _ _ hg h'
    refine ⟨?_, rfl⟩
    simpa [Handshake, newConn, asSqlError, errLayout] using h

/-- The response of user bob under capability word 0 is denied by the credential
check with error 1045; the ERR packet written has no state. -/
theorem Handshake_checkAuth_denied_witness :
    (Handshake mysqlEnv srv7 (client bobResponse [])).value
      = some (false, some (Trace (.sql (NewSqlError mysqlEnv 1045
          [.str (ascii "bob"), .str (ascii "localhost"), .str yes]))))
    ∧ (packetsWritten (Handshake mysqlEnv srv7 (client bobResponse [])).conn.trace).length = 2 := by
  have h := (Handshake_checkAuth_denied mysqlEnv srv7 (client bobResponse [])
    ⟨srv7, client bobResponse [], 1, [.writePacket ([0, 0, 0, 0] ++ greetingLayout srv7)]⟩
    0 (ascii "bob") [] []
    (NewSqlError mysqlEnv 1045 [.str (ascii "bob"), .str (ascii "localhost"), .str yes])
    (writeInitPacket_run (newConn srv7 (client bobResponse [])) (by decide)
      ⟨by decide, by decide, by decide, by decide⟩)
    (by decide) rfl).1
  rw [h]
  exact ⟨rfl, rfl⟩

/-- C14 fails as stated: the identity offers protocol-41, the client answers
with capability word 0, and `CheckAuth` returns error 1045 with state 28000;
the one ERR packet written consists of the marker, the number and the message,
without the state. -/
theorem Handshake_denied_without_state :
    rootOnly (ascii "bob") [] []
      = some (.sql (NewSqlError mysqlEnv 1045
          [.str (ascii "bob"), .str (ascii "localhost"), .str yes]))
    ∧ (NewSqlError mysqlEnv 1045
          [.str (ascii "bob"), .str (ascii "localhost"), .str yes]).State = ascii "28000"
    ∧ (packetsWritten (Handshake mysqlEnv srv7 (client bobResponse [])).conn.trace).drop 1
      = [[0xFF] ++ le16 1045 ++ (NewSqlError mysqlEnv 1045
          [.str (ascii "bob"), .str (ascii "localhost"), .str yes]).Message] := by
  decide

/-- C17 fails on the code: whenever `Handshake` returns, it returns a session
with a nil error, or a nil session with a non-nil error after a final cleanup;
but it does not always return: on the response whose user name has no NUL
terminator it panics while parsing, before any cleanup, and returns neither a
session nor an error. -/
theorem Handshake_returns_or_panics :
    (∀ (env : Env) (s : MySQLServer) (conn : NetConn),
      match Handshake env s conn with
      | .ok (session, err) c =>
          (session = true ∧ err = none ∧ cleanupCount c.trace = 0)
          ∨ (session = false ∧ err ≠ none ∧ c.trace.getLast? = some .cleanup)
      | .panic c => cleanupCount c.trace = 0)
    ∧ (Handshake mysqlEnv srv7 (client unterminatedUser [])).panicked = true
    ∧ (Handshake mysqlEnv srv7 (client unterminatedUser [])).value = none
    ∧ (Handshake mysqlEnv srv7 (client unterminatedUser [])).conn.trace
      = [.writePacket ([0, 0, 0, 0] ++ greetingLayout srv7), .readPacket, .SetCap 512] := by
  refine ⟨fun env s conn => ?_, by decide, by decide, by decide⟩
  rcases Handshake_outcomes env s conn with h | ⟨g, -, ⟨err, -, h⟩ | ⟨c, -, h, ht⟩ |
    ⟨err, c2, evs, -, -, -, -, -, h⟩ | ⟨v, u, a, d, -, -, h⟩⟩
  · rw [h]; rfl
  · rw [h]; exact Or.inr ⟨rfl, by simp, rfl⟩
  · rw [h]
    show cleanupCount c.trace = 0
    rcases ht with ht | ⟨v, ht⟩ <;> rw [ht] <;> rfl
  · rw [h]; exact Or.inr ⟨rfl, by simp, by simp⟩
  · rw [h]
    cases conn.writeResult 1 with
    | none => exact Or.inl ⟨rfl, rfl, rfl⟩
    | some err => exact Or.inr ⟨rfl, by simp, rfl⟩

/-! ## What the response reader depends on -/

/-- What `readHandshakeResponse` does on a well-formed response followed by
arbitrary bytes. -/
theorem readHandshakeResponse_wellformed (env : Env) (conn : Conn) (c : Nat)
    (skip u a d trail spare : Bytes) (hc : c < 4294967296) (hskip : skip.length = 28)
    (hu : 0 ∉ u) (ha : a.length < 256) (hd : 0 ∉ d)
    (hr : conn.netConn.readResult = .inr ⟨responseWith env c skip u a d trail, spare⟩) :
    readHandshakeResponse env conn =
      .ok (conn.srv.CheckAuth u a (if c &&& env.clientConnectWithDB = 0 then [] else d))
        { conn with
          srv := { conn.srv with cap := c }
          trace := conn.trace ++ [.readPacket, .SetCap c,
            .CheckAuth u a (if c &&& env.clientConnectWithDB = 0 then [] else d)] } := by
  rw [readHandshakeResponse_parsed env conn c skip u a
    (if c &&& env.clientConnectWithDB = 0 then trail else d ++ [0] ++ trail) spare hc hskip hu ha
    (by rw [hr]; rfl)]
  by_cases hb : c &&& env.clientConnectWithDB = 0
  · simp only [hb, if_true]
  · have hs : Slice.slice ⟨d ++ [0] ++ trail, spare⟩ 0 (IndexByte (d ++ [0] ++ trail) 0)
        = some ⟨d, 0 :: trail ++ spare⟩ := by
      have e : d ++ [0] ++ trail = d ++ 0 :: trail := by simp
      rw [e, IndexByte_terminated d trail hd]
      have := slice_mid [] d (0 :: trail) spare 0 d.length (by simp) (by simp)
      simpa using this
    simp only [hb, if_false, hs]
    simp

/-- C20: two well-formed responses with the same capability word, user, auth
and (with the connect-with-database bit) database, whatever their bytes 4..31,
the bytes after their last field and the buffer behind them, make
`readHandshakeResponse` pass the same value to `SetCap`, call `CheckAuth` with
the same arguments and return the same result. -/
theorem readHandshakeResponse_skipped_bytes (env : Env) (conn : Conn) (c : Nat)
    (skip1 skip2 u a d trail1 trail2 spare1 spare2 : Bytes) (hc : c < 4294967296)
    (h1 : skip1.length = 28) (h2 : skip2.length = 28) (hu : 0 ∉ u) (ha : a.length < 256)
    (hd : 0 ∉ d) :
    (readHandshakeResponse env
        (receiving conn (responseWith env c skip1 u a d trail1) spare1)).value
      = (readHandshakeResponse env
        (receiving conn (responseWith env c skip2 u a d trail2) spare2)).value
    ∧ (readHandshakeResponse env
        (receiving conn (responseWith env c skip1 u a d trail1) spare1)).value
      = some (conn.srv.CheckAuth u a (if c &&& env.clientConnectWithDB = 0 then [] else d))
    ∧ (readHandshakeResponse env
        (receiving conn (responseWith env c skip1 u a d trail1) spare1)).conn.trace
      = (readHandshakeResponse env
        (receiving conn (responseWith env c skip2 u a d trail2) spare2)).conn.trace
    ∧ setCapArgs (readHandshakeResponse env
        (receiving conn (responseWith env c skip1 u a d trail1) spare1)).conn.trace
      = setCapArgs conn.trace ++ [c]
    ∧ checkAuthCalls (readHandshakeResponse env
        (receiving conn (responseWith env c skip1 u a d trail1) spare1)).conn.trace
      = checkAuthCalls conn.trace
        ++ [(u, a, if c &&& env.clientConnectWithDB = 0 then [] else d)] := by
  have e1 := readHandshakeResponse_wellformed env
    (receiving conn (responseWith env c skip1 u a d trail1) spare1) c skip1 u a d trail1 spare1
    hc h1 hu ha hd rfl
  have e2 := readHandshakeResponse_wellformed env
    (receiving conn (responseWith env c skip2 u a d trail2) spare2) c skip2 u a d trail2 spare2
    hc h2 hu ha hd rfl
  rw [e1, e2]
  refine ⟨rfl, rfl, rfl, ?_, ?_⟩
  · simp [Res.conn, receiving, setCapArgs_append, setCapArgs]
  · simp [Res.conn, receiving, checkAuthCalls_append, checkAuthCalls]

/-- Two responses of user root with database shop under word 520, one with zero
bytes and one with other bytes in positions 4..31 and after the database. -/
theorem readHandshakeResponse_skipped_bytes_witness :
    (readHandshakeResponse mysqlEnv (receiving (newConn srv7 (client [] []))
        (responseWith mysqlEnv 520 zeros28 (ascii "root") [1] (ascii "shop") []) [])).value
      = (readHandshakeResponse mysqlEnv (receiving (newConn srv7 (client [] []))
        (responseWith mysqlEnv 520 (List.replicate 28 7) (ascii "root") [1] (ascii "shop")
          [9, 9]) [5])).value :=
  (readHandshakeResponse_skipped_bytes mysqlEnv (newConn srv7 (client [] [])) 520 zeros28
    (List.replicate 28 7) (ascii "root") [1] (ascii "shop") [] [9, 9] [] [5] (by decide)
    (by decide) (by decide) (by decide) (by decide) (by decide)).1

/-! ## The gate before the OK packet -/

/-- C19: every run of `Handshake` either has the accepting form, in which the
calls are the greeting, the read, `SetCap`, one call of `CheckAuth` that
returned nil, the write of the OK packet, and then `ResetSequence` (the session
is returned) or the cleanup (the write failed); or it never calls
`ResetSequence`, returns no session, and the packets it writes are none, the
greeting alone, or the greeting and one ERR packet.  When
`readHandshakeResponse` returns an error (read failure, missing database or
`CheckAuth` failure) the run ends with one ERR packet and the cleanup, without
an OK packet and without a call of `ResetSequence`. -/
theorem Handshake_accepts_only_after_checkAuth (env : Env) (s : MySQLServer) (conn : NetConn) :
    ((∃ g v u a d, (writeInitPacket (newConn s conn)).conn.trace = [.writePacket g]
        ∧ s.CheckAuth u a d = none
        ∧ (((Handshake env s conn).value = some (true, none)
            ∧ (Handshake env s conn).conn.trace
              = [.writePacket g, .readPacket, .SetCap v, .CheckAuth u a d,
                .writePacket (conn.takeSmallBuffer 32 ++ okLayout env v 0 0 s.Status 0),
                .ResetSequence])
          ∨ ((∃ err, (Handshake env s conn).value = some (false, some err))
            ∧ (Handshake env s conn).conn.trace
              = [.writePacket g, .readPacket, .SetCap v, .CheckAuth u a d,
                .writePacket (conn.takeSmallBuffer 32 ++ okLayout env v 0 0 s.Status 0),
                .cleanup])))
      ∨ (resetCount (Handshake env s conn).conn.trace = 0
        ∧ (∀ err, (Handshake env s conn).value ≠ some (true, err))
        ∧ (packetsWritten (Handshake env s conn).conn.trace = []
          ∨ (∃ g, (writeInitPacket (newConn s conn)).conn.trace = [.writePacket g]
            ∧ (packetsWritten (Handshake env s conn).conn.trace = [g]
              ∨ ∃ k cap m, packetsWritten (Handshake env s conn).conn.trace
                = [g, conn.takeSmallBuffer k ++ errLayout env cap m])))))
    ∧ (∀ c1 c2 err, writeInitPacket (newConn s conn) = .ok none c1 →
      readHandshakeResponse env c1 = .ok (some err) c2 →
        Handshake env s conn = .ok (false, some (Trace err))
          { c2 with
            writes := c2.writes + 1
            trace := c2.trace ++ [.writePacket
              (c2.netConn.takeSmallBuffer (16 + (asSqlError env err).Message.length)
                ++ errLayout env c2.srv.cap (asSqlError env err)), .cleanup] }
        ∧ resetCount (c2.trace ++ [.writePacket
              (c2.netConn.takeSmallBuffer (16 + (asSqlError env err).Message.length)
                ++ errLayout env c2.srv.cap (asSqlError env err)), .cleanup]) = 0
        ∧ packetsWritten (c2.trace ++ [.writePacket
              (c2.netConn.takeSmallBuffer (16 + (asSqlError env err).Message.length)
                ++ errLayout env c2.srv.cap (asSqlError env err)), .cleanup])
          = packetsWritten c1.trace ++
            [c2.netConn.takeSmallBuffer (16 + (asSqlError env err).Message.length)
              ++ errLayout env c2.srv.cap (asSqlError env err)]
        ∧ (packetsWritten c1.trace).length = 1) := by
  constructor
  · rcases Handshake_outcomes env s conn with h | ⟨g, hg, ⟨err, -, h⟩ | ⟨c, -, h, ht⟩ |
      ⟨err, c2, evs, -, -, htr, hreset, hpk, h⟩ | ⟨v, u, a, d, -, hnil, h⟩⟩
    · right
      rw [h]
      exact ⟨rfl, (fun e he => by cases he), Or.inl rfl⟩
    · right
      rw [h]
      exact ⟨rfl, (fun e he => by cases he), Or.inr ⟨g, by rw [hg]; rfl, Or.inl rfl⟩⟩
    · right
      rw [h]
      refine ⟨?_, (fun e he => by cases he), Or.inr ⟨g, by rw [hg]; rfl, Or.inl ?_⟩⟩
      · rcases ht with ht | ⟨v, ht⟩ <;> simp [Res.conn, ht, resetCount]
      · rcases ht with ht | ⟨v, ht⟩ <;> simp [Res.conn, ht, packetsWritten]
    · right
      rw [h]
      refine ⟨?_, (fun e he => by cases he), Or.inr ⟨g, by rw [hg]; rfl,
        Or.inr ⟨16 + (asSqlError env err).Message.length, c2.srv.cap, asSqlError env err, ?_⟩⟩⟩
      · simp [Res.conn, htr, resetCount_append, resetCount, hreset]
      · simp [Res.conn, htr, packetsWritten_append, packetsWritten, hpk]
    · left
      refine ⟨g, v, u, a, d, by rw [hg]; rfl, hnil, ?_⟩
      rw [h]
      cases conn.writeResult 1 with
      | none => exact Or.inl ⟨rfl, rfl⟩
      | some err => exact Or.inr ⟨⟨_, rfl⟩, rfl⟩
  · intro c1 c2 err hg hr
    obtain ⟨data, rfl, -⟩ := writeInitPacket_ok_state _ _ _ hg
    obtain ⟨evs, htr, hreset, hpk, -, -⟩ := readHandshakeResponse_error env _ _ err hr
    refine ⟨handshakeSteps_response_error env _ _ _ err hg hr, ?_, ?_, ?_⟩
    · rw [htr]
      simp [newConn, resetCount_append, resetCount, hreset]
    · rw [htr]
      simp [newConn, packetsWritten_append, packetsWritten, hpk]
    · simp [newConn, packetsWritten]

/-- The response of user root is accepted after one successful credential
check and the run has the accepting form; the response with the database bit
and no database ends with an ERR packet and the cleanup, without a reset. -/
theorem Handshake_accepts_only_after_checkAuth_witness :
    (Handshake mysqlEnv srv7 (client (rootResponse 512) [])).conn.trace
      = [.writePacket ([0, 0, 0, 0] ++ greetingLayout srv7), .readPacket, .SetCap 512,
          .CheckAuth (ascii "root") [] [], .writePacket [0x00, 0, 0, 2, 0, 0, 0],
          .ResetSequence]
    ∧ (Handshake mysqlEnv srv7 (client (rootResponse 520) [])).value
      = some (false, some (Trace (Trace (.sql (NewSqlError mysqlEnv 1045
          [.str (ascii "10.0.0.9:4000"), .str (ascii "root"), .str yes])))))
    ∧ resetCount (Handshake mysqlEnv srv7 (client (rootResponse 520) [])).conn.trace = 0
    ∧ (packetsWritten (Handshake mysqlEnv srv7 (client (rootResponse 520) [])).conn.trace).length
      = 2 := by
  have hg2 : writeInitPacket (newConn srv7 (client (rootResponse 520) []))
      = .ok none ⟨srv7, client (rootResponse 520) [], 1,
          [.writePacket ([0, 0, 0, 0] ++ greetingLayout srv7)]⟩ :=
    writeInitPacket_run (newConn srv7 (client (rootResponse 520) [])) (by decide)
      ⟨by decide, by decide, by decide, by decide⟩
  have hr2 := readHandshakeResponse_parsed mysqlEnv
    ⟨srv7, client (rootResponse 520) [], 1, [.writePacket ([0, 0, 0, 0] ++ greetingLayout srv7)]⟩
    520 zeros28 (ascii "root") [] [] [] (by decide) (by decide) (by decide) (by decide)
    (by decide)
  have h := (Handshake_accepts_only_after_checkAuth mysqlEnv srv7
    (client (rootResponse 520) [])).2 _ _ _ hg2 hr2
  refine ⟨by decide, ?_, ?_, ?_⟩
  · rw [h.1]; rfl
  · rw [h.1]; exact h.2.1
  · rw [h.1]
    simp only [Res.conn]
    rw [h.2.2.1]
    rfl

end Mysql
